import Mathlib

deriving instance DecidableEq for Except

/-!
# Verification of the HiRAG context-assembly service core

Shallow embedding of the Rust sources of the HiRAG repository
(context assembler, OCR decode cache and circuit breaker, fact store,
autodev orchestrator) together with proofs that settle the frozen claims
about the natural-language specification.

Conventions used throughout:

* Rust `usize`/`u32` counters are modelled as `Nat` (the code never
  relies on wrap-around for these values).
* `std::time::Instant` values are modelled as `Nat` time stamps; an
  `elapsed()` call at time `now` for an instant `t` is `now - t`
  (truncated subtraction, which agrees with the Rust semantics because
  instants are monotone).
* `f32` values that only flow through the code as opaque scores are
  modelled as `Option ℚ`: `none` models NaN (the one value on which
  `partial_cmp` returns `None`), `some q` models a non-NaN value.
* Fallible Rust code is modelled with `Option`/`Except`; a Rust panic
  (`unwrap` on `None`) is modelled as a distinguished abnormal result.
* `HashMap` receivers are modelled either as association lists (when
  iteration/eviction order matters) or as total functions with a
  default entry (for the per-operation circuit-breaker table).
-/

namespace HiRAG

/-! ## Token budget (`src/context/token_budget.rs`) -/

/-- `TokenBudgetConfig` from `token_budget.rs`. -/
structure TokenBudgetConfig where
  system_tokens : Nat
  running_brief : Nat
  recent_turns : Nat
  retrieved_context : Nat
  completion : Nat
  max_total : Nat
  deriving Repr, DecidableEq

/-- `TokenBudgetConfig::default` (700, 1200, 450, 3750, 1000, 8000). -/
def TokenBudgetConfig.default : TokenBudgetConfig :=
  ⟨700, 1200, 450, 3750, 1000, 8000⟩

/-- `BudgetError` from `token_budget.rs`. -/
inductive BudgetError where
  | budgetExceeded (used max : Nat)
  | configurationInvalid (allocated max : Nat)
  | estimationFailed (msg : String)
  | insufficientBudget (needed available : Nat)
  deriving Repr, DecidableEq

/-- `BudgetAllocation` from `token_budget.rs`. -/
structure BudgetAllocation where
  system_tokens : Nat
  running_brief : Nat
  recent_turns : Nat
  retrieved_context : Nat
  completion : Nat
  total_allocated : Nat
  remaining : Nat
  deriving Repr, DecidableEq

/-- `TokenBudgetConfig::validate`. -/
def TokenBudgetConfig.validate (cfg : TokenBudgetConfig) : Except BudgetError Unit :=
  let total := cfg.system_tokens + cfg.running_brief + cfg.recent_turns +
    cfg.retrieved_context + cfg.completion
  if total > cfg.max_total then
    .error (.configurationInvalid total cfg.max_total)
  else
    .ok ()

/-- `TokenBudgetManager::allocate`: sums the five realized counts and
either fails with `BudgetExceeded` or returns the allocation record. -/
def allocate (cfg : TokenBudgetConfig)
    (system_used brief_used turns_used context_used completion_used : Nat) :
    Except BudgetError BudgetAllocation :=
  let total := system_used + brief_used + turns_used + context_used + completion_used
  if total > cfg.max_total then
    .error (.budgetExceeded total cfg.max_total)
  else
    .ok ⟨system_used, brief_used, turns_used, context_used, completion_used,
      total, cfg.max_total - total⟩

/-- `TokenBudgetManager::recommended_snippet_count`:
`(retrieved_context / 325).min(12).max(8)`. -/
def recommendedSnippetCount (cfg : TokenBudgetConfig) : Nat :=
  Nat.max (Nat.min (cfg.retrieved_context / 325) 12) 8

/-! ## Context artifacts (`src/context/models.rs`) -/

/-- An `f32` score as it flows through the comparator: `none` models NaN
(the value whose `partial_cmp` is `None`), `some q` a non-NaN value. -/
abbrev F32 := Option ℚ

/-- `ContextPriority` with `Critical > High > Medium > Low`
(Rust discriminants 4, 3, 2, 1). -/
inductive ContextPriority where
  | low
  | medium
  | high
  | critical
  deriving Repr, DecidableEq

/-- Discriminant of `ContextPriority` (the value Rust's derived `Ord`
compares). -/
def ContextPriority.rank : ContextPriority → Nat
  | .low => 1
  | .medium => 2
  | .high => 3
  | .critical => 4

/-- `RelevanceScore` from `models.rs` (all five fields are `f32`). -/
structure RelevanceScore where
  task_relevance : F32
  recency : F32
  complexity : F32
  reference_density : F32
  total : F32
  deriving Repr, DecidableEq

/-- `ContextArtifact` from `models.rs`. -/
structure ContextArtifact where
  id : String
  content : String
  metadata : List (String × String)
  priority : ContextPriority
  relevance : RelevanceScore
  token_count : Nat
  deriving Repr, DecidableEq

/-- `f32::partial_cmp`: `None` exactly when one side is NaN. -/
def f32PartialCmp (a b : F32) : Option Ordering :=
  match a, b with
  | some x, some y => some (compare x y)
  | _, _ => none

/-- The comparator closure of `prioritize_artifacts`
(`adaptive_manager.rs:168`):
`b.priority.cmp(&a.priority).then_with(|| b.relevance.total.partial_cmp(&a.relevance.total).unwrap())`.
A `none` result models the panic of `unwrap` on a NaN comparison. -/
def artifactCmp (a b : ContextArtifact) : Option Ordering :=
  match compare b.priority.rank a.priority.rank with
  | .eq => f32PartialCmp b.relevance.total a.relevance.total
  | o => some o

/-- Insertion step of a stable sort with a fallible comparator: the
element `a` is placed before the first list element it does not compare
`Greater` to; a `none` comparison aborts (models the comparator panic). -/
def orderedInsertCmp (cmp : α → α → Option Ordering) (a : α) :
    List α → Option (List α)
  | [] => some [a]
  | b :: l =>
    match cmp a b with
    | none => none
    | some .gt => (orderedInsertCmp cmp a l).map (b :: ·)
    | some _ => some (a :: b :: l)

/-- Stable sort with a fallible comparator, modelling `slice::sort_by`
(documented to be a stable sort); `none` models a comparator panic. -/
def sortByCmp (cmp : α → α → Option Ordering) : List α → Option (List α)
  | [] => some []
  | a :: l => (sortByCmp cmp l).bind (orderedInsertCmp cmp a)

/-- `AdaptiveContextManager::prioritize_artifacts`: stable sort by
priority descending then relevance total descending (panicking on NaN),
then truncate to the recommended snippet count. -/
def prioritizeArtifacts (cfg : TokenBudgetConfig)
    (artifacts : List ContextArtifact) : Option (List ContextArtifact) :=
  (sortByCmp artifactCmp artifacts).map (·.take (recommendedSnippetCount cfg))

/-! ## Adaptive context manager (`src/context/adaptive_manager.rs`) -/

/-- Abnormal results of `build_context`: a comparator panic aborts the
assembly, a `BudgetError` propagates from `allocate`, and
`ContextError::Configuration` is the summarize-then-retry failure. -/
inductive ContextBuildError where
  | panic
  | budget (e : BudgetError)
  | configuration (msg : String)
  deriving Repr, DecidableEq

/-- `AdaptiveContext` from `adaptive_manager.rs`. -/
structure AdaptiveContext where
  system_prompt : String
  running_brief : String
  recent_turns : List String
  retrieved_snippets : List ContextArtifact
  budget_allocation : BudgetAllocation
  metadata : List (String × String)
  deriving Repr, DecidableEq

/-- `AdaptiveContext::total_tokens`. -/
def AdaptiveContext.total_tokens (c : AdaptiveContext) : Nat :=
  c.budget_allocation.total_allocated

/-- The text list handed to the summarizer by `summarize_turns`
(`adaptive_manager.rs:265-266`): the current brief followed by ALL the
turns that were passed in. -/
def textsToSummarize (current_brief : String) (turns : List String) :
    List String :=
  current_brief :: turns

/-- `AdaptiveContextManager::summarize_turns`, parameterized by the
configured summarizer (`summarize(texts, target_tokens)` modelled as a
total function; its error path is orthogonal to the claims). -/
def summarizeTurns (summarizer : List String → Nat → String)
    (cfg : TokenBudgetConfig) (current_brief : String)
    (turns : List String) : String :=
  if turns.isEmpty then current_brief
  else summarizer (textsToSummarize current_brief turns) cfg.running_brief

/-- `AdaptiveContextManager::shrink_artifacts`: keep the first
`max(⌊2·n/3⌋, 4)` artifacts (`truncate(target_count.max(4))`). -/
def shrinkArtifacts (artifacts : List ContextArtifact) :
    List ContextArtifact :=
  let target_count := artifacts.length * 2 / 3
  artifacts.take (Nat.max target_count 4)

/-- The artifact count the SPEC's shrink step mandates:
`max(4, ⌈2·n/3⌉)`. Modelled from the spec's words for the refutation
of the shrink claim; the implementation floors instead. -/
def specShrinkCount (n : Nat) : Nat :=
  Nat.max 4 ((2 * n + 2) / 3)

/-- `AdaptiveContextManager::summarize_and_retry`, parameterized by the
token estimator and the summarizer. -/
def summarizeAndRetry (est : String → Nat)
    (summarizer : List String → Nat → String) (cfg : TokenBudgetConfig)
    (system_prompt running_brief : String) (recent_turns : List String)
    (artifacts : List ContextArtifact) :
    Except ContextBuildError AdaptiveContext :=
  let summarized_brief := summarizeTurns summarizer cfg running_brief recent_turns
  let recent_turns' :=
    match recent_turns.getLast? with
    | some t => [t]
    | none => []
  let shrunk_artifacts := shrinkArtifacts artifacts
  let system_tokens := est system_prompt
  let brief_tokens := est summarized_brief
  let turns_tokens := (recent_turns'.map est).sum
  let context_tokens := (shrunk_artifacts.map (·.token_count)).sum
  let completion_tokens := cfg.completion
  let total_tokens := system_tokens + brief_tokens + turns_tokens +
    context_tokens + completion_tokens
  if total_tokens > cfg.max_total then
    .error (.configuration "Cannot fit context within budget even after summarization")
  else
    match allocate cfg system_tokens brief_tokens turns_tokens context_tokens
      completion_tokens with
    | .error e => .error (.budget e)
    | .ok alloc =>
      .ok ⟨system_prompt, summarized_brief, recent_turns', shrunk_artifacts,
        alloc, []⟩

/-- `AdaptiveContextManager::build_context`, parameterized by the token
estimator (the Rust `estimate_tokens` uses `f32` word-count arithmetic;
the claims hold for every estimator) and the summarizer. -/
def buildContext (est : String → Nat)
    (summarizer : List String → Nat → String) (cfg : TokenBudgetConfig)
    (system_prompt running_brief : String) (recent_turns : List String)
    (artifacts : List ContextArtifact) :
    Except ContextBuildError AdaptiveContext :=
  let system_tokens := est system_prompt
  let brief_tokens := est running_brief
  let turns_tokens := (recent_turns.map est).sum
  match prioritizeArtifacts cfg artifacts with
  | none => .error .panic
  | some selected_artifacts =>
    let context_tokens := (selected_artifacts.map (·.token_count)).sum
    let completion_tokens := cfg.completion
    let total_tokens := system_tokens + brief_tokens + turns_tokens +
      context_tokens + completion_tokens
    if total_tokens > cfg.max_total then
      summarizeAndRetry est summarizer cfg system_prompt running_brief
        recent_turns selected_artifacts
    else
      match allocate cfg system_tokens brief_tokens turns_tokens
        context_tokens completion_tokens with
      | .error e => .error (.budget e)
      | .ok alloc =>
        .ok ⟨system_prompt, running_brief, recent_turns, selected_artifacts,
          alloc, []⟩

/-! ## Circuit breaker (`src/api/vision/circuit_breaker.rs`) -/

/-- `BreakerState`. -/
inductive BreakerState where
  | closed
  | open
  | halfOpen
  deriving Repr, DecidableEq

/-- `BreakerEntry`: per-operation state, failure count, and `Instant`s
modelled as `Nat` time stamps. -/
structure BreakerEntry where
  state : BreakerState
  failure_count : Nat
  last_failure : Option Nat
  opened_at : Option Nat
  deriving Repr, DecidableEq

/-- `BreakerEntry::new`. -/
def BreakerEntry.new : BreakerEntry :=
  ⟨.closed, 0, none, none⟩

/-- `CircuitBreakerConfig`. -/
structure CircuitBreakerConfig where
  failure_threshold : Nat
  reset_timeout : Nat
  deriving Repr, DecidableEq

/-- The `HashMap<String, BreakerEntry>` guarded by the breaker's mutex,
modelled as a total function with the `or_insert_with(BreakerEntry::new)`
default baked in. -/
def BreakerMap := String → BreakerEntry

/-- The fresh breaker table. -/
def BreakerMap.initial : BreakerMap := fun _ => .new

/-- Pointwise update of the breaker table. -/
def BreakerMap.set (m : BreakerMap) (op : String) (e : BreakerEntry) :
    BreakerMap :=
  fun op' => if op' = op then e else m op'

/-- `CircuitBreaker::is_open` on a single entry, at probe time `now`:
in `Open`, once `opened_at.elapsed() >= reset_timeout` the state
transitions to `HalfOpen` and the probe reports `false`. -/
def isOpenEntry (cfg : CircuitBreakerConfig) (e : BreakerEntry)
    (now : Nat) : Bool × BreakerEntry :=
  match e.state with
  | .closed => (false, e)
  | .open =>
    match e.opened_at with
    | some opened_at =>
      if now - opened_at ≥ cfg.reset_timeout then
        (false, { e with state := .halfOpen })
      else
        (true, e)
    | none => (true, e)
  | .halfOpen => (false, e)

/-- `CircuitBreaker::is_open` (entry lookup with default, then probe,
writing the possibly transitioned entry back). -/
def isOpen (cfg : CircuitBreakerConfig) (m : BreakerMap) (op : String)
    (now : Nat) : Bool × BreakerMap :=
  let (b, e') := isOpenEntry cfg (m op) now
  (b, m.set op e')

/-- `CircuitBreaker::mark_success`: reset to `Closed` with zero failures. -/
def markSuccess (m : BreakerMap) (op : String) : BreakerMap :=
  m.set op ⟨.closed, 0, none, none⟩

/-- `CircuitBreaker::mark_failure` at time `now`: bump the count, record
the failure time, and open the circuit once the count reaches the
threshold. -/
def markFailureEntry (cfg : CircuitBreakerConfig) (e : BreakerEntry)
    (now : Nat) : BreakerEntry :=
  let e' := { e with failure_count := e.failure_count + 1, last_failure := some now }
  if e'.failure_count ≥ cfg.failure_threshold then
    { e' with state := .open, opened_at := some now }
  else
    e'

/-- `CircuitBreaker::mark_failure` on the table. -/
def markFailure (cfg : CircuitBreakerConfig) (m : BreakerMap) (op : String)
    (now : Nat) : BreakerMap :=
  m.set op (markFailureEntry cfg (m op) now)

/-- A sequence of `mark_failure` calls at the given times. -/
def markFailures (cfg : CircuitBreakerConfig) (m : BreakerMap) (op : String)
    (times : List Nat) : BreakerMap :=
  times.foldl (fun m' t => markFailure cfg m' op t) m

/-! ## Decode cache (`src/api/vision/cache.rs`) -/

/-- `FidelityLevel` from `src/api/vision/models.rs`. -/
inductive FidelityLevel where
  | fast
  | balanced
  | high
  | exact
  deriving Repr, DecidableEq

/-- `FidelityLevel::as_str`. -/
def FidelityLevel.asStr : FidelityLevel → String
  | .fast => "20x"
  | .balanced => "10x"
  | .high => "5x"
  | .exact => "1x"

/-- `DecodeResult` (the short decode-result shape the cache stores:
`{region_id, text, confidence}`; `confidence` is an `f32` modelled as a
rational). -/
structure DecodeResult where
  region_id : String
  text : String
  confidence : ℚ
  deriving Repr, DecidableEq

/-- `CacheKey`. -/
structure CacheKey where
  region_id : String
  fidelity : String
  deriving Repr, DecidableEq

/-- `CacheEntry` with its insertion `Instant` as a `Nat` time stamp. -/
structure CacheEntry where
  result : DecodeResult
  inserted_at : Nat
  deriving Repr, DecidableEq

/-- The cache's `HashMap<CacheKey, CacheEntry>` as an association list
(unique keys; the list order stands in for the map's iteration order). -/
abbrev CacheEntries := List (CacheKey × CacheEntry)

/-- `DecodeCache` (the mutex around `entries` is irrelevant to the
sequential claims). -/
structure DecodeCache where
  entries : CacheEntries
  ttl : Nat
  max_size : Nat
  deriving Repr, DecidableEq

/-- Key test for the entry table. -/
def keyEq (k : CacheKey) (p : CacheKey × CacheEntry) : Bool :=
  p.1 = k

/-- Key lookup in the entry table. -/
def cacheLookup (k : CacheKey) (l : CacheEntries) : Option CacheEntry :=
  (l.find? (keyEq k)).map (·.2)

/-- `HashMap::remove` on the entry table. -/
def cacheEraseKey (k : CacheKey) (l : CacheEntries) : CacheEntries :=
  l.filter (fun p => ! keyEq k p)

/-- `HashMap::insert` on the entry table: replace in place if the key is
present, append otherwise. -/
def cacheInsert (k : CacheKey) (v : CacheEntry) (l : CacheEntries) :
    CacheEntries :=
  if (cacheLookup k l).isSome then
    l.map (fun p => if p.1 = k then (k, v) else p)
  else
    l ++ [(k, v)]

/-- One step of the minimum scan of `min_by_key`. -/
def oldestStep (acc : Option (CacheKey × CacheEntry))
    (p : CacheKey × CacheEntry) : Option (CacheKey × CacheEntry) :=
  match acc with
  | none => some p
  | some q => if p.2.inserted_at ≤ q.2.inserted_at then some p else some q

/-- `entries.iter().min_by_key(|(_, entry)| entry.inserted_at)`:
the pair with minimal insertion time (later entries win ties, matching
`Iterator::min_by_key`; the tie order is unobservable for a `HashMap`). -/
def oldestPair (l : CacheEntries) : Option (CacheKey × CacheEntry) :=
  l.foldl oldestStep none

/-- `DecodeCache::evict_oldest`. -/
def evictOldest (l : CacheEntries) : CacheEntries :=
  match oldestPair l with
  | some p => cacheEraseKey p.1 l
  | none => l

/-- `DecodeCache::get` at probe time `now`: a fresh entry is returned
verbatim, an expired one is removed and `None` returned. -/
def cacheGet (c : DecodeCache) (region_id : String) (fidelity : FidelityLevel)
    (now : Nat) : Option DecodeResult × DecodeCache :=
  let key : CacheKey := ⟨region_id, fidelity.asStr⟩
  match cacheLookup key c.entries with
  | some entry =>
    if now - entry.inserted_at < c.ttl then
      (some entry.result, c)
    else
      (none, { c with entries := cacheEraseKey key c.entries })
  | none => (none, c)

/-- `DecodeCache::store` at time `now`: evict the oldest entry when at
capacity with a new key, then insert. -/
def cacheStore (c : DecodeCache) (region_id : String)
    (fidelity : FidelityLevel) (result : DecodeResult) (now : Nat) :
    DecodeCache :=
  let key : CacheKey := ⟨region_id, fidelity.asStr⟩
  let entry : CacheEntry := ⟨result, now⟩
  let entries :=
    if c.entries.length ≥ c.max_size ∧ ¬ (cacheLookup key c.entries).isSome then
      evictOldest c.entries
    else
      c.entries
  { c with entries := cacheInsert key entry entries }

/-- The cache's keys are pairwise distinct (the `HashMap` invariant). -/
abbrev cacheKeysNodup (l : CacheEntries) : Prop :=
  (l.map (·.1)).Nodup

/-! ## A minimal `serde_json::Value` (`Json`) for the orchestrator and
fact-store payloads -/

/-- `serde_json::Value`, with numbers as rationals (the payloads in
scope carry only integers and `f32`/`f64` values). -/
inductive Json where
  | null
  | bool (b : Bool)
  | num (n : ℚ)
  | str (s : String)
  | arr (elems : List Json)
  | obj (fields : List (String × Json))
  deriving Repr

/-- `Value::get(key)` on an object. -/
def Json.get? (j : Json) (key : String) : Option Json :=
  match j with
  | .obj fields => (fields.find? (fun p => p.1 = key)).map (·.2)
  | _ => none

/-- `Value::as_u64`. -/
def Json.asU64 : Json → Option Nat
  | .num n => if n.den = 1 ∧ 0 ≤ n.num then some n.num.toNat else none
  | _ => none

/-- `Value::as_i64`. -/
def Json.asI64 : Json → Option Int
  | .num n => if n.den = 1 then some n.num else none
  | _ => none

/-- `Value::as_f64`. -/
def Json.asF64 : Json → Option ℚ
  | .num n => some n
  | _ => none

/-- `Value::as_bool`. -/
def Json.asBool : Json → Option Bool
  | .bool b => some b
  | _ => none

/-- `Value::as_str`. -/
def Json.asStr : Json → Option String
  | .str s => some s
  | _ => none

/-- `Value::as_array`. -/
def Json.asArr : Json → Option (List Json)
  | .arr elems => some elems
  | _ => none

/-! ## Orchestrator (`src/autodev/orchestrator.rs`, claims C2 and C9) -/

/-- `TaskStatus` from `src/autodev/schemas.rs`. -/
inductive TaskStatus where
  | pending
  | planning
  | executing
  | verifying
  | prCreated
  | merged
  | failed
  | cancelled
  deriving Repr, DecidableEq

/-- `RiskTier` from `src/autodev/schemas.rs`. -/
inductive RiskTier where
  | low
  | medium
  | high
  deriving Repr, DecidableEq

/-- serde's `rename_all = "lowercase"` decoding of `RiskTier`. -/
def riskTierFromStr : String → Option RiskTier
  | "low" => some .low
  | "medium" => some .medium
  | "high" => some .high
  | _ => none

/-- `PolicyInput` from `src/autodev/schemas.rs` (`task_id` kept as its
string rendering). -/
structure PolicyInput where
  task_id : String
  risk_tier : RiskTier
  diff : String
  files_changed : List String
  new_dependencies : List String
  clippy_warnings : Nat
  tests_passed : Bool
  secrets_found : Bool
  deriving Repr, DecidableEq

/-- `PolicyDecision` from `src/autodev/schemas.rs`. -/
structure PolicyDecision where
  allow : Bool
  deny_reasons : List String
  warnings : List String
  deriving Repr, DecidableEq

/-- `LocalPolicyTool::check_local_policy` (`src/autodev/tools/policy.rs`),
with the deny reasons and warnings accumulated in source order. -/
def checkLocalPolicy (input : PolicyInput) : PolicyDecision :=
  let deny_reasons :=
    (if input.risk_tier = .high then ["High-risk changes require human review"] else []) ++
    (if input.secrets_found then ["Secrets detected in changes"] else []) ++
    (if ¬ input.tests_passed then ["Tests must pass before merge"] else []) ++
    (if input.files_changed.any (fun f => f.endsWith ".sql") then
      ["Database schema changes require DBA approval"] else [])
  let warnings :=
    (if input.clippy_warnings > 0 then
      [toString input.clippy_warnings ++ " clippy warnings found"] else []) ++
    (if ¬ input.new_dependencies.isEmpty then
      ["New dependencies added: " ++ String.intercalate ", " input.new_dependencies] else [])
  ⟨deny_reasons.isEmpty, deny_reasons, warnings⟩

/-- `ToolContext` (the fields `build_policy_input` can read). -/
structure ToolContextM where
  workdir : String
  repo_url : String
  base_branch : String
  task_id : String
  deriving Repr, DecidableEq

/-- `Orchestrator::build_policy_input`: assembles the policy-input JSON
from the recorded step outputs and the git-derived changed-file list.
The `risk_tier` field is the literal string `"low"`; the function does
not receive the task at all. -/
def buildPolicyInput (ctx : ToolContextM) (outputs : List (String × Json))
    (files_changed : List String) : Json :=
  let get := fun (name : String) => (outputs.find? (fun p => p.1 = name)).map (·.2)
  let clippy_warnings :=
    (((get "Run clippy").bind (·.get? "warnings")).bind Json.asU64).getD 0
  let tests_passed :=
    ((((get "Run tests").bind (·.get? "exit_code")).bind Json.asI64).map
      (fun c => c == 0)).getD false
  let secrets_found :=
    (((get "Scan for secrets").bind (·.get? "secrets_found")).bind Json.asBool).getD false
  let patch :=
    (((get "Generate code changes").bind (·.get? "patch")).bind Json.asStr).getD ""
  let new_dependencies :=
    ((((get "Check dependencies").bind (·.get? "new_dependencies")).bind
      Json.asArr).map (fun l => l.filterMap Json.asStr)).getD []
  Json.obj
    [("task_id", .str ctx.task_id),
     ("risk_tier", .str "low"),
     ("diff", .str patch),
     ("files_changed", .arr (files_changed.map .str)),
     ("new_dependencies", .arr (new_dependencies.map .str)),
     ("clippy_warnings", .num clippy_warnings),
     ("tests_passed", .bool tests_passed),
     ("secrets_found", .bool secrets_found)]

/-- The serde step `PolicyTool`/`LocalPolicyTool` apply to the
`risk_tier` field of the constructed input. -/
def extractRiskTier (j : Json) : Option RiskTier :=
  ((j.get? "risk_tier").bind Json.asStr).bind riskTierFromStr

/-- A plan step (`Step` from `schemas.rs`, the fields the execution loop
reads). -/
structure PlanStep where
  name : String
  tool : String
  deriving Repr, DecidableEq

/-- Observable events of `Orchestrator::execute_plan`: a single
invocation of a step (by plan index) and the fixed sleeps of the
"retry" branch. -/
inductive PlanEvent where
  | attempt (i : Nat) (success : Bool)
  | sleepSecs (n : Nat)
  deriving Repr, DecidableEq

/-- The loop body of `Orchestrator::execute_plan`
(`orchestrator.rs:295-329`), with `execute_step` abstracted by an
outcome oracle indexed by the plan position (each position is executed
at most once, so the oracle captures any dependence on earlier
outputs). On a failure at index `i`, the code checks
`i < max_step_retries`, sleeps 2 s and `continue`s — which advances the
`for` loop to the NEXT step — and otherwise returns the error. -/
def executePlanGo (max_step_retries : Nat)
    (outcome : Nat → Except String Unit) :
    List PlanStep → Nat → List PlanEvent × Except String Unit
  | [], _ => ([], .ok ())
  | _ :: rest, i =>
    match outcome i with
    | .ok _ =>
      let res := executePlanGo max_step_retries outcome rest (i + 1)
      (.attempt i true :: res.1, res.2)
    | .error e =>
      if i < max_step_retries then
        let res := executePlanGo max_step_retries outcome rest (i + 1)
        (.attempt i false :: .sleepSecs 2 :: res.1, res.2)
      else
        ([.attempt i false], .error e)

/-- `Orchestrator::execute_plan` over the whole step list. -/
def executePlan (max_step_retries : Nat)
    (outcome : Nat → Except String Unit) (steps : List PlanStep) :
    List PlanEvent × Except String Unit :=
  executePlanGo max_step_retries outcome steps 0

/-- `Orchestrator::run_task`'s classification of the plan result
(`orchestrator.rs:61-73`): `Ok` sets `PrCreated`, `Err` sets `Failed`
and records the error. -/
def runTaskOutcome (planResult : Except String Unit) :
    TaskStatus × Option String :=
  match planResult with
  | .ok _ => (.prCreated, none)
  | .error e => (.failed, some e)

/-- Number of times plan position `i` is attempted in a trace. -/
def attemptsAt (i : Nat) (trace : List PlanEvent) : Nat :=
  trace.countP fun ev =>
    match ev with
    | .attempt j _ => j = i
    | _ => false

/-! ## DeepSeek OCR client (`src/api/vision/deepseek_client.rs`, C8) -/

/-- `OcrError` from `deepseek_client.rs`. -/
inductive OcrError where
  | disabled
  | circuitOpen (op : String)
  | requestFailed (msg : String)
  | upstreamError (msg : String)
  | timeout (msg : String)
  | invalidResponse (msg : String)
  deriving Repr, DecidableEq

/-- `JobStatus` from `models.rs`. -/
inductive JobStatus where
  | queued
  | running
  | succeeded
  | failed
  deriving Repr, DecidableEq

/-- `ApiError` (the part `JobStatusResponse` carries). -/
structure ApiErrorM where
  code : String
  message : String
  deriving Repr, DecidableEq

/-- `JobStatusResponse` from `models.rs`. -/
structure JobStatusResponse where
  job_id : String
  status : JobStatus
  error : Option ApiErrorM
  deriving Repr, DecidableEq

/-- `IndexResponse` from `models.rs`. -/
structure IndexResponse where
  job_id : String
  status : JobStatus
  deriving Repr, DecidableEq

/-- Outcome of one HTTP round trip to the upstream, abstracting
`reqwest` (send-level timeout/error, non-2xx status, body-parse
failure, or a parsed value). -/
inductive HttpOutcome (α : Type) where
  | sendTimeout (msg : String)
  | sendError (msg : String)
  | httpError (status : Nat) (body : String)
  | parseError (msg : String)
  | success (value : α)

/-- Result of one client operation: the returned value or error, the
breaker table afterwards, and whether the upstream was contacted. -/
structure UpstreamCall (α : Type) where
  result : Except OcrError α
  breaker : BreakerMap
  upstream_called : Bool

/-- `DeepseekOcrClient::get_job_status`
(`deepseek_client.rs:304-364`): after the `enabled` gate it goes
straight to the upstream — it never reads `is_open`, and no branch
calls `mark_failure` or `mark_success`. -/
def getJobStatus (enabled : Bool) (breaker : BreakerMap)
    (outcome : HttpOutcome JobStatusResponse) :
    UpstreamCall JobStatusResponse :=
  if ¬ enabled then ⟨.error .disabled, breaker, false⟩
  else
    match outcome with
    | .sendTimeout msg => ⟨.error (.timeout msg), breaker, true⟩
    | .sendError msg => ⟨.error (.requestFailed msg), breaker, true⟩
    | .httpError status body =>
      ⟨.error (.upstreamError ("Status " ++ toString status ++ ": " ++ body)),
        breaker, true⟩
    | .parseError msg => ⟨.error (.invalidResponse msg), breaker, true⟩
    | .success v => ⟨.ok v, breaker, true⟩

/-- `DeepseekOcrClient::index_document`
(`deepseek_client.rs:224-301`): checks the breaker under the `"index"`
label, marks a failure on send errors and non-2xx statuses, marks a
success on a parsed response (and marks nothing on a body-parse
failure). -/
def indexDocument (cfg : CircuitBreakerConfig) (enabled : Bool)
    (breaker : BreakerMap) (now : Nat)
    (outcome : HttpOutcome IndexResponse) : UpstreamCall IndexResponse :=
  if ¬ enabled then ⟨.error .disabled, breaker, false⟩
  else
    let probe := isOpen cfg breaker "index" now
    if probe.1 then ⟨.error (.circuitOpen "index"), probe.2, false⟩
    else
      match outcome with
      | .sendTimeout msg =>
        ⟨.error (.timeout msg), markFailure cfg probe.2 "index" now, true⟩
      | .sendError msg =>
        ⟨.error (.requestFailed msg), markFailure cfg probe.2 "index" now, true⟩
      | .httpError status body =>
        ⟨.error (.upstreamError ("Status " ++ toString status ++ ": " ++ body)),
          markFailure cfg probe.2 "index" now, true⟩
      | .parseError msg => ⟨.error (.invalidResponse msg), probe.2, true⟩
      | .success v => ⟨.ok v, markSuccess probe.2 "index", true⟩

/-! ## Fact store (`src/facts/store.rs` and `src/facts/models.rs`) -/

/-- `SourceAnchor` from `src/facts/models.rs` (`page` is a `u32`). -/
structure SourceAnchor where
  doc_id : Option String
  page : Option Nat
  region_id : Option String
  vt_ref : Option String
  path_line : Option String
  deriving Repr, DecidableEq

/-- The empty anchor (`SourceAnchor::new`). -/
def SourceAnchor.empty : SourceAnchor := ⟨none, none, none, none, none⟩

/-- `FactQuery` from `src/facts/models.rs`. -/
structure FactQuery where
  subject : Option String
  predicate : Option String
  object : Option String
  source_doc : Option String
  min_confidence : Option ℚ
  limit : Nat
  deriving Repr, DecidableEq

/-- A keyword match condition as pushed into the Qdrant `Filter`'s
`must` list. -/
structure FieldCondition where
  key : String
  match_keyword : String
  deriving Repr, DecidableEq

/-- The `must` conditions built by `FactStore::query_facts`
(`store.rs:219-268`): one keyword condition per provided field among
`subject`, `predicate`, `object` — and nothing else. -/
def buildConditions (query : FactQuery) : List FieldCondition :=
  (match query.subject with
   | some s => [⟨"subject", s⟩]
   | none => []) ++
  (match query.predicate with
   | some p => [⟨"predicate", p⟩]
   | none => []) ++
  (match query.object with
   | some o => [⟨"object", o⟩]
   | none => [])

/-- The filter sent to the vector database (`store.rs:270-277`):
`None` when no condition was built. -/
def buildFilter (query : FactQuery) : Option (List FieldCondition) :=
  let conditions := buildConditions query
  if conditions.isEmpty then none else some conditions

/-- The number of provided filter fields the SPEC says must each
contribute one condition ("one condition per provided field among
subject, predicate, object, source_doc, and min_confidence").
Modelled from the spec for the refutation of C6. -/
def specProvidedFieldCount (query : FactQuery) : Nat :=
  (if query.subject.isSome then 1 else 0) +
  (if query.predicate.isSome then 1 else 0) +
  (if query.object.isSome then 1 else 0) +
  (if query.source_doc.isSome then 1 else 0) +
  (if query.min_confidence.isSome then 1 else 0)

/-- `Fact` from `src/facts/models.rs` (`observed_at` as a Unix
time stamp, `confidence` an `f32` modelled as a rational). -/
structure Fact where
  id : String
  subject : String
  predicate : String
  object : String
  datatype : Option String
  source_doc : Option String
  source_anchor : SourceAnchor
  confidence : ℚ
  observed_at : Int
  hash : String
  deriving Repr, DecidableEq

/-- A Qdrant `ScoredPoint` as `query_facts` consumes it. -/
structure ScoredPoint where
  id : Option String
  payload : Option (List (String × Json))
  deriving Repr

/-- Payload field lookup. -/
def payloadGet (payload : List (String × Json)) (key : String) :
    Option Json :=
  (payload.find? (fun p => p.1 = key)).map (·.2)

/-- The `filter_map` closure of `query_facts` (`store.rs:298-315`):
every `?` on a missing or ill-typed payload field drops the hit.
`parseRfc3339` abstracts chrono's RFC-3339 parser; its failure also
drops the hit (`…ok()?`). -/
def pointToFact (parseRfc3339 : String → Option Int) (point : ScoredPoint) :
    Option Fact := do
  let payload ← point.payload
  let id ← point.id
  let subject ← (payloadGet payload "subject").bind Json.asStr
  let predicate ← (payloadGet payload "predicate").bind Json.asStr
  let object ← (payloadGet payload "object").bind Json.asStr
  let source_doc := (payloadGet payload "source_doc").bind Json.asStr
  let confidence ← (payloadGet payload "confidence").bind Json.asF64
  let observed_str ← (payloadGet payload "observed_at").bind Json.asStr
  let observed_at ← parseRfc3339 observed_str
  let hash ← (payloadGet payload "hash").bind Json.asStr
  some ⟨id, subject, predicate, object, none, source_doc, .empty,
    confidence, observed_at, hash⟩

/-- `FactQueryResponse`. -/
structure FactQueryResponse where
  facts : List Fact
  total : Nat
  deriving Repr, DecidableEq

/-- `FactStore::query_facts`, with the vector-database round trip
abstracted by `search` (given the filter and the capped limit): builds
the conjunctive filter, caps the limit at `max_facts_per_query`, and
converts the hits, dropping any with missing payload fields. -/
def queryFacts (max_facts_per_query : Nat)
    (search : Option (List FieldCondition) → Nat → List ScoredPoint)
    (parseRfc3339 : String → Option Int) (query : FactQuery) :
    FactQueryResponse :=
  let filter := buildFilter query
  let limit := Nat.min query.limit max_facts_per_query
  let points := search filter limit
  let facts := points.filterMap (pointToFact parseRfc3339)
  ⟨facts, facts.length⟩

/-! ## SHA-256 (the `sha2` crate's `Sha256`, as used by
`Fact::compute_hash`) -/

/-- Right rotation of a 32-bit word (inputs and outputs < 2^32). -/
def rotr32 (n x : Nat) : Nat :=
  (x >>> n) ||| ((x <<< (32 - n)) % 4294967296)

/-- SHA-256 big sigma 0. -/
def sumSig0 (x : Nat) : Nat := rotr32 2 x ^^^ rotr32 13 x ^^^ rotr32 22 x

/-- SHA-256 big sigma 1. -/
def sumSig1 (x : Nat) : Nat := rotr32 6 x ^^^ rotr32 11 x ^^^ rotr32 25 x

/-- SHA-256 small sigma 0. -/
def smallSig0 (x : Nat) : Nat := rotr32 7 x ^^^ rotr32 18 x ^^^ (x >>> 3)

/-- SHA-256 small sigma 1. -/
def smallSig1 (x : Nat) : Nat := rotr32 17 x ^^^ rotr32 19 x ^^^ (x >>> 10)

/-- SHA-256 choose function. -/
def chFn (x y z : Nat) : Nat := (x &&& y) ^^^ ((x ^^^ 4294967295) &&& z)

/-- SHA-256 majority function. -/
def majFn (x y z : Nat) : Nat := (x &&& y) ^^^ (x &&& z) ^^^ (y &&& z)

/-- The 64 SHA-256 round constants (decimal). -/
def sha256K : List Nat :=
  [1116352408, 1899447441, 3049323471, 3921009573, 961987163,
   1508970993, 2453635748, 2870763221, 3624381080, 310598401,
   607225278, 1426881987, 1925078388, 2162078206, 2614888103,
   3248222580, 3835390401, 4022224774, 264347078, 604807628,
   770255983, 1249150122, 1555081692, 1996064986, 2554220882,
   2821834349, 2952996808, 3210313671, 3336571891, 3584528711,
   113926993, 338241895, 666307205, 773529912, 1294757372,
   1396182291, 1695183700, 1986661051, 2177026350, 2456956037,
   2730485921, 2820302411, 3259730800, 3345764771, 3516065817,
   3600352804, 4094571909, 275423344, 430227734, 506948616,
   659060556, 883997877, 958139571, 1322822218, 1537002063,
   1747873779, 1955562222, 2024104815, 2227730452, 2361852424,
   2428436474, 2756734187, 3204031479, 3329325298]

/-- Big-endian 32-bit words from a byte list. -/
def toWords : List Nat → List Nat
  | b0 :: b1 :: b2 :: b3 :: rest =>
    (b0 * 16777216 + b1 * 65536 + b2 * 256 + b3) :: toWords rest
  | _ => []

/-- `n`-byte big-endian encoding of `x`. -/
def bytesBE : Nat → Nat → List Nat
  | 0, _ => []
  | n + 1, x => bytesBE n (x / 256) ++ [x % 256]

/-- SHA-256 padding: `0x80`, zeros to 56 mod 64, then the 64-bit
big-endian bit length. -/
def padMessage (msg : List Nat) : List Nat :=
  let len := msg.length
  let zeros := (119 - len % 64) % 64
  msg ++ [128] ++ List.replicate zeros 0 ++ bytesBE 8 (len * 8)

/-- Split into 64-byte blocks (fuel-indexed; called with enough fuel). -/
def chunks64 : Nat → List Nat → List (List Nat)
  | 0, _ => []
  | _, [] => []
  | fuel + 1, l => l.take 64 :: chunks64 fuel (l.drop 64)

/-- Extend the 16-word block to the 64-word message schedule. -/
def schedGo : Nat → Array Nat → Array Nat
  | 0, w => w
  | n + 1, w =>
    let t := w.size
    let x := (smallSig1 (w.getD (t - 2) 0) + w.getD (t - 7) 0 +
      smallSig0 (w.getD (t - 15) 0) + w.getD (t - 16) 0) % 4294967296
    schedGo n (w.push x)

/-- The eight SHA-256 working variables. -/
structure Sha256State where
  a : Nat
  b : Nat
  c : Nat
  d : Nat
  e : Nat
  f : Nat
  g : Nat
  h : Nat
  deriving Repr, DecidableEq

/-- The SHA-256 initial hash value. -/
def sha256Init : Sha256State :=
  ⟨1779033703, 3144134277, 1013904242, 2773480762,
   1359893119, 2600822924, 528734635, 1541459225⟩

/-- One SHA-256 round. -/
def compressStep (st : Sha256State) (kw : Nat × Nat) : Sha256State :=
  let t1 := (st.h + sumSig1 st.e + chFn st.e st.f st.g + kw.1 + kw.2) % 4294967296
  let t2 := (sumSig0 st.a + majFn st.a st.b st.c) % 4294967296
  ⟨(t1 + t2) % 4294967296, st.a, st.b, st.c,
   (st.d + t1) % 4294967296, st.e, st.f, st.g⟩

/-- SHA-256 compression of one 64-byte block. -/
def compressBlock (st : Sha256State) (block : List Nat) : Sha256State :=
  let w := (schedGo 48 (toWords block).toArray).toList
  let r := (sha256K.zip w).foldl compressStep st
  ⟨(st.a + r.a) % 4294967296, (st.b + r.b) % 4294967296,
   (st.c + r.c) % 4294967296, (st.d + r.d) % 4294967296,
   (st.e + r.e) % 4294967296, (st.f + r.f) % 4294967296,
   (st.g + r.g) % 4294967296, (st.h + r.h) % 4294967296⟩

/-- A lowercase hex digit. -/
def hexDigit (n : Nat) : Char :=
  if n < 10 then Char.ofNat (48 + n) else Char.ofNat (87 + n)

/-- A byte as two lowercase hex digits. -/
def byteToHex (b : Nat) : String :=
  String.mk [hexDigit (b / 16), hexDigit (b % 16)]

/-- SHA-256 of a byte list, rendered as `format!("{:x}", …)` does:
64 lowercase hex digits. -/
def sha256 (msg : List Nat) : String :=
  let padded := padMessage msg
  let final := (chunks64 padded.length padded).foldl compressBlock sha256Init
  let digestBytes :=
    ([final.a, final.b, final.c, final.d,
      final.e, final.f, final.g, final.h].map (bytesBE 4)).flatten
  String.join (digestBytes.map byteToHex)

/-- UTF-8 encoding of one scalar value. -/
def utf8Bytes (c : Char) : List Nat :=
  let n := c.toNat
  if n < 128 then [n]
  else if n < 2048 then [192 + n / 64, 128 + n % 64]
  else if n < 65536 then [224 + n / 4096, 128 + n / 64 % 64, 128 + n % 64]
  else [240 + n / 262144, 128 + n / 4096 % 64, 128 + n / 64 % 64, 128 + n % 64]

/-- `str::as_bytes`: the UTF-8 bytes of a string. -/
def strBytes (s : String) : List Nat :=
  (s.data.map utf8Bytes).flatten

/-! ## Fact hashing (`src/facts/models.rs`) -/

/-- The exact byte stream `Fact::compute_hash` feeds to the hasher:
raw (untrimmed) subject, `|`, predicate, `|`, object, `|`, then the
present anchor fields `doc_id`, decimal `page`, `region_id` with no
separators between them. -/
def hashPreimage (subject predicate object : String)
    (source_anchor : SourceAnchor) : List Nat :=
  strBytes subject ++ strBytes "|" ++
  strBytes predicate ++ strBytes "|" ++
  strBytes object ++ strBytes "|" ++
  (match source_anchor.doc_id with
   | some doc_id => strBytes doc_id
   | none => []) ++
  (match source_anchor.page with
   | some page => strBytes (toString page)
   | none => []) ++
  (match source_anchor.region_id with
   | some region_id => strBytes region_id
   | none => [])

/-- `Fact::compute_hash`. -/
def computeHash (subject predicate object : String)
    (source_anchor : SourceAnchor) : String :=
  sha256 (hashPreimage subject predicate object source_anchor)

/-- `Fact::new`; the freshly generated UUID and `Utc::now()` are passed
in as parameters (they are the nondeterministic inputs of the Rust
function), and `confidence.clamp(0.0, 1.0)` is `min (max confidence 0) 1`. -/
def factNew (id : String) (observed_at : Int)
    (subject predicate object : String) (source_anchor : SourceAnchor)
    (confidence : ℚ) : Fact :=
  { id := id
    subject := subject
    predicate := predicate
    object := object
    datatype := none
    source_doc := source_anchor.doc_id
    source_anchor := source_anchor
    confidence := min (max confidence 0) 1
    observed_at := observed_at
    hash := computeHash subject predicate object source_anchor }

/-! ## Theorems -/

/-- Helper: a successful `allocate` satisfies the `BudgetAllocation`
invariants. -/
theorem allocate_ok_spec (cfg : TokenBudgetConfig)
    {s b t c comp : Nat} {alloc : BudgetAllocation}
    (h : allocate cfg s b t c comp = .ok alloc) :
    alloc.total_allocated = alloc.system_tokens + alloc.running_brief +
      alloc.recent_turns + alloc.retrieved_context + alloc.completion ∧
    alloc.total_allocated ≤ cfg.max_total ∧
    alloc.remaining = cfg.max_total - alloc.total_allocated := by
  unfold allocate at h
  dsimp only at h
  split at h
  · exact absurd h (by simp)
  · next hle =>
    cases h
    refine ⟨rfl, ?_, rfl⟩
    simpa using hle

/-- Helper: every success of `build_context` goes through `allocate`. -/
theorem buildContext_ok_allocate
    {est : String → Nat} {summarizer : List String → Nat → String}
    {cfg : TokenBudgetConfig} {sp rb : String} {rt : List String}
    {arts : List ContextArtifact} {ctx : AdaptiveContext}
    (h : buildContext est summarizer cfg sp rb rt arts = .ok ctx) :
    ∃ s b t c comp, allocate cfg s b t c comp = .ok ctx.budget_allocation := by
  unfold buildContext at h
  cases hp : prioritizeArtifacts cfg arts with
  | none => rw [hp] at h; exact absurd h (by simp)
  | some sel =>
    rw [hp] at h
    dsimp only at h
    split at h
    · unfold summarizeAndRetry at h
      dsimp only at h
      split at h
      · exact absurd h (by simp)
      · split at h
        · exact absurd h (by simp)
        · next alloc ha =>
          cases h
          exact ⟨_, _, _, _, _, ha⟩
    · split at h
      · exact absurd h (by simp)
      · next alloc ha =>
        cases h
        exact ⟨_, _, _, _, _, ha⟩

/-- C1: for every successful context assembly the returned
`AdaptiveContext`'s budget allocation has `total_allocated` equal to the
sum of the five component counts, `total_allocated ≤ max_total` and
`remaining = max_total − total_allocated`; and `allocate` returns
`BudgetExceeded {used, max}` exactly when the five component counts sum
to more than `max_total`. -/
theorem claim_C1_budget_allocation
    (est : String → Nat) (summarizer : List String → Nat → String)
    (cfg : TokenBudgetConfig) (sp rb : String) (rt : List String)
    (arts : List ContextArtifact) (ctx : AdaptiveContext)
    (h : buildContext est summarizer cfg sp rb rt arts = .ok ctx) :
    (ctx.budget_allocation.total_allocated =
        ctx.budget_allocation.system_tokens + ctx.budget_allocation.running_brief +
        ctx.budget_allocation.recent_turns + ctx.budget_allocation.retrieved_context +
        ctx.budget_allocation.completion ∧
      ctx.budget_allocation.total_allocated ≤ cfg.max_total ∧
      ctx.budget_allocation.remaining =
        cfg.max_total - ctx.budget_allocation.total_allocated) ∧
    (∀ s b t c comp : Nat,
      (s + b + t + c + comp > cfg.max_total →
        allocate cfg s b t c comp =
          .error (.budgetExceeded (s + b + t + c + comp) cfg.max_total)) ∧
      (s + b + t + c + comp ≤ cfg.max_total →
        ∃ alloc, allocate cfg s b t c comp = .ok alloc)) := by
  constructor
  · obtain ⟨s, b, t, c, comp, ha⟩ := buildContext_ok_allocate h
    exact allocate_ok_spec cfg ha
  · intro s b t c comp
    constructor
    · intro hgt
      unfold allocate
      dsimp only
      rw [if_pos hgt]
    · intro hle
      unfold allocate
      dsimp only
      rw [if_neg (by omega)]
      exact ⟨_, rfl⟩

/-- Witness for C1: a concrete successful assembly (empty inputs,
default config) together with the allocation invariants it yields. -/
theorem claim_C1_budget_allocation_witness :
    ((⟨0, 0, 0, 0, 1000, 1000, 7000⟩ : BudgetAllocation).total_allocated =
        (⟨0, 0, 0, 0, 1000, 1000, 7000⟩ : BudgetAllocation).system_tokens +
        (⟨0, 0, 0, 0, 1000, 1000, 7000⟩ : BudgetAllocation).running_brief +
        (⟨0, 0, 0, 0, 1000, 1000, 7000⟩ : BudgetAllocation).recent_turns +
        (⟨0, 0, 0, 0, 1000, 1000, 7000⟩ : BudgetAllocation).retrieved_context +
        (⟨0, 0, 0, 0, 1000, 1000, 7000⟩ : BudgetAllocation).completion ∧
      (⟨0, 0, 0, 0, 1000, 1000, 7000⟩ : BudgetAllocation).total_allocated ≤
        TokenBudgetConfig.default.max_total ∧
      (⟨0, 0, 0, 0, 1000, 1000, 7000⟩ : BudgetAllocation).remaining =
        TokenBudgetConfig.default.max_total -
        (⟨0, 0, 0, 0, 1000, 1000, 7000⟩ : BudgetAllocation).total_allocated) ∧
    (∀ s b t c comp : Nat,
      (s + b + t + c + comp > TokenBudgetConfig.default.max_total →
        allocate TokenBudgetConfig.default s b t c comp =
          .error (.budgetExceeded (s + b + t + c + comp)
            TokenBudgetConfig.default.max_total)) ∧
      (s + b + t + c + comp ≤ TokenBudgetConfig.default.max_total →
        ∃ alloc, allocate TokenBudgetConfig.default s b t c comp = .ok alloc)) :=
  claim_C1_budget_allocation (fun s => s.length) (fun _ _ => "")
    TokenBudgetConfig.default "" "" [] []
    ⟨"", "", [], [], ⟨0, 0, 0, 0, 1000, 1000, 7000⟩, []⟩ (by rfl)

/-- Helper for C2: every attempt recorded by the execution loop for a
position handled later than the start index has index ≥ start. -/
theorem executePlanGo_attempt_ge (m : Nat) (o : Nat → Except String Unit) :
    ∀ (steps : List PlanStep) (start j : Nat) (b : Bool),
      PlanEvent.attempt j b ∈ (executePlanGo m o steps start).1 → start ≤ j := by
  intro steps
  induction steps with
  | nil => intro start j b hmem; simp [executePlanGo] at hmem
  | cons s rest ih =>
    intro start j b hmem
    unfold executePlanGo at hmem
    cases ho : o start with
    | ok u =>
      rw [ho] at hmem
      dsimp only at hmem
      simp only [List.mem_cons] at hmem
      rcases hmem with h | h
      · cases h; exact le_refl _
      · exact le_trans (Nat.le_succ start) (ih (start + 1) j b h)
    | error e =>
      rw [ho] at hmem
      dsimp only at hmem
      by_cases hr : start < m
      · rw [if_pos hr] at hmem
        dsimp only at hmem
        simp only [List.mem_cons] at hmem
        rcases hmem with h | h | h
        · cases h; exact le_refl _
        · cases h
        · exact le_trans (Nat.le_succ start) (ih (start + 1) j b h)
      · rw [if_neg hr] at hmem
        dsimp only at hmem
        simp only [List.mem_cons, List.not_mem_nil, or_false] at hmem
        cases hmem; exact le_refl _

/-- Helper: counting an attempt event. -/
theorem attemptsAt_cons (i j : Nat) (b : Bool) (tr : List PlanEvent) :
    attemptsAt i (PlanEvent.attempt j b :: tr) =
      attemptsAt i tr + (if j = i then 1 else 0) := by
  unfold attemptsAt
  rw [List.countP_cons]
  by_cases hj : j = i <;> simp [hj]

/-- Helper: sleeping does not count as an attempt. -/
theorem attemptsAt_sleep_cons (i n : Nat) (tr : List PlanEvent) :
    attemptsAt i (PlanEvent.sleepSecs n :: tr) = attemptsAt i tr := by
  unfold attemptsAt
  rw [List.countP_cons]
  simp

/-- Helper for C2: the execution loop attempts every plan position at
most once — there is no retry of a failed step. -/
theorem executePlanGo_attempts_le_one (m : Nat) (o : Nat → Except String Unit) :
    ∀ (steps : List PlanStep) (start j : Nat),
      attemptsAt j (executePlanGo m o steps start).1 ≤ 1 := by
  intro steps
  induction steps with
  | nil => intro start j; simp [executePlanGo, attemptsAt]
  | cons s rest ih =>
    intro start j
    have tail_le := ih (start + 1) j
    have tail_zero : start = j →
        attemptsAt j (executePlanGo m o rest (start + 1)).1 = 0 := by
      intro hj
      unfold attemptsAt
      rw [List.countP_eq_zero]
      intro ev hev
      cases ev with
      | attempt k b =>
        have hk := executePlanGo_attempt_ge m o rest (start + 1) k b hev
        simp only [decide_eq_true_eq]
        omega
      | sleepSecs n => simp
    unfold executePlanGo
    cases ho : o start with
    | ok u =>
      dsimp only
      rw [attemptsAt_cons]
      by_cases hj : start = j
      · rw [if_pos hj, tail_zero hj]
      · rw [if_neg hj]; omega
    | error e =>
      dsimp only
      by_cases hr : start < m
      · rw [if_pos hr]
        dsimp only
        rw [attemptsAt_cons, attemptsAt_sleep_cons]
        by_cases hj : start = j
        · rw [if_pos hj, tail_zero hj]
        · rw [if_neg hj]; omega
      · rw [if_neg hr]
        dsimp only
        by_cases hj : start = j <;>
          simp [attemptsAt, List.countP_cons, hj]

/-- C2 (code bug): with `max_step_retries = 3` and a two-step plan whose
first step fails deterministically, the execution loop attempts the
failed step exactly once, sleeps 2 s, then executes the NEXT step
(`continue` advances the `for` loop instead of retrying), and the plan
— and hence `run_task` — reports success (`PrCreated`), while the
specified behaviour is up to 4 attempts of the failed step, immediate
termination on final failure, task `Failed`, and no later step running.
The second conjunct shows the general absence of any retry: every plan
position is attempted at most once. -/
theorem claim_C2_step_retry_code_bug :
    (executePlan 3 (fun i => if i = 0 then .error "step failed" else .ok ())
        [⟨"Search repository", "repo_search"⟩,
         ⟨"Generate code changes", "codegen"⟩] =
      ([.attempt 0 false, .sleepSecs 2, .attempt 1 true], .ok ()) ∧
      runTaskOutcome
        (executePlan 3 (fun i => if i = 0 then .error "step failed" else .ok ())
          [⟨"Search repository", "repo_search"⟩,
           ⟨"Generate code changes", "codegen"⟩]).2 = (.prCreated, none)) ∧
    (∀ (m : Nat) (o : Nat → Except String Unit) (steps : List PlanStep) (j : Nat),
      attemptsAt j (executePlan m o steps).1 ≤ 1) := by
  refine ⟨⟨by decide, by decide⟩, ?_⟩
  intro m o steps j
  exact executePlanGo_attempts_le_one m o steps 0 j

/-- C9: the policy input the orchestrator builds carries the literal
risk tier `"low"` (the function never sees the task's `risk_tier`), and
the local policy's High-risk deny rule cannot fire on any input whose
risk tier is not `High`. -/
theorem claim_C9_risk_tier_hardcoded_low
    (ctx : ToolContextM) (outputs : List (String × Json))
    (files_changed : List String) :
    extractRiskTier (buildPolicyInput ctx outputs files_changed) =
      some .low ∧
    (∀ input : PolicyInput, input.risk_tier ≠ .high →
      "High-risk changes require human review" ∉
        (checkLocalPolicy input).deny_reasons) := by
  constructor
  · rfl
  · intro input hrt
    unfold checkLocalPolicy
    dsimp only
    rw [if_neg hrt]
    split_ifs <;> simp_all

/-- Witness for C9: the hardcoded low tier on a concrete context and the
vacuous High-risk rule on a concrete low-risk input. -/
theorem claim_C9_risk_tier_hardcoded_low_witness :
    extractRiskTier
      (buildPolicyInput ⟨"/tmp/w", "https://github.com/o/r.git", "main", "t-1"⟩
        [] ["src/main.rs"]) = some .low ∧
    "High-risk changes require human review" ∉
      (checkLocalPolicy
        ⟨"t-1", .low, "", ["src/main.rs"], [], 0, true, false⟩).deny_reasons :=
  ⟨(claim_C9_risk_tier_hardcoded_low
      ⟨"/tmp/w", "https://github.com/o/r.git", "main", "t-1"⟩ [] ["src/main.rs"]).1,
   (claim_C9_risk_tier_hardcoded_low
      ⟨"/tmp/w", "https://github.com/o/r.git", "main", "t-1"⟩ [] ["src/main.rs"]).2
     ⟨"t-1", .low, "", ["src/main.rs"], [], 0, true, false⟩ (by decide)⟩

/-- C8 counterexample: with the breaker genuinely open for the
`"status"` label (threshold 5, reset timeout 30, opened at time 100,
probed at 110), `get_job_status` still contacts the upstream, returns
its response, and leaves the breaker untouched — instead of rejecting
with `CircuitOpen` and updating the breaker once per attempt. -/
theorem claim_C8_counterexample :
    (isOpen ⟨5, 30⟩
      (BreakerMap.initial.set "status" ⟨.open, 5, some 100, some 100⟩)
      "status" 110).1 = true ∧
    (getJobStatus true
      (BreakerMap.initial.set "status" ⟨.open, 5, some 100, some 100⟩)
      (.success ⟨"job-1", .running, none⟩)).result =
        .ok ⟨"job-1", .running, none⟩ ∧
    (getJobStatus true
      (BreakerMap.initial.set "status" ⟨.open, 5, some 100, some 100⟩)
      (.success ⟨"job-1", .running, none⟩)).upstream_called = true ∧
    (getJobStatus true
      (BreakerMap.initial.set "status" ⟨.open, 5, some 100, some 100⟩)
      (.success ⟨"job-1", .running, none⟩)).breaker =
        BreakerMap.initial.set "status" ⟨.open, 5, some 100, some 100⟩ :=
  ⟨rfl, rfl, rfl, rfl⟩

/-- C8 (amended): `get_job_status` never consults or updates the
circuit breaker: whatever the breaker table holds, the call proceeds to
the upstream, can never fail with `CircuitOpen`, and returns the
breaker table unchanged (no `mark_failure`/`mark_success` on any
attempt). Only `index_document` gates and updates the breaker, under
its `"index"` label. -/
theorem claim_C8_status_ignores_breaker (breaker : BreakerMap)
    (outcome : HttpOutcome JobStatusResponse) :
    (getJobStatus true breaker outcome).breaker = breaker ∧
    (getJobStatus true breaker outcome).upstream_called = true ∧
    (∀ op : String,
      (getJobStatus true breaker outcome).result ≠ .error (.circuitOpen op)) := by
  cases outcome <;> simp [getJobStatus]

/-- Witness for C8 (amended): concrete breaker table and outcome. -/
theorem claim_C8_status_ignores_breaker_witness :
    (getJobStatus true BreakerMap.initial
      (.success ⟨"j", .queued, none⟩)).breaker = BreakerMap.initial ∧
    (getJobStatus true BreakerMap.initial
      (.success ⟨"j", .queued, none⟩)).upstream_called = true ∧
    (getJobStatus true BreakerMap.initial
      (.success ⟨"j", .queued, none⟩)).result ≠ .error (.circuitOpen "status") :=
  ⟨(claim_C8_status_ignores_breaker BreakerMap.initial
      (.success ⟨"j", .queued, none⟩)).1,
   (claim_C8_status_ignores_breaker BreakerMap.initial
      (.success ⟨"j", .queued, none⟩)).2.1,
   (claim_C8_status_ignores_breaker BreakerMap.initial
      (.success ⟨"j", .queued, none⟩)).2.2 "status"⟩

/-- C6 counterexample: a query providing only `source_doc` and
`min_confidence` produces NO filter condition at all (the filter sent
is `None`), although the claim requires one condition per provided
field among the five. -/
theorem claim_C6_counterexample :
    buildFilter ⟨none, none, none, some "doc_1", some (1/2 : ℚ), 10⟩ = none ∧
    buildConditions ⟨none, none, none, some "doc_1", some (1/2 : ℚ), 10⟩ = [] ∧
    specProvidedFieldCount ⟨none, none, none, some "doc_1", some (1/2 : ℚ), 10⟩ = 2 := by
  decide

/-- C6 (amended): the filter is the conjunction of one keyword
condition per provided field among `subject`, `predicate`, `object`
ONLY (provided `source_doc`/`min_confidence` impose no condition), the
effective limit is capped at `max_facts_per_query`, and hits with a
missing payload (or a missing payload field) are dropped from the
response rather than causing a hard error. -/
theorem claim_C6_query_filter (q : FactQuery) (max_facts : Nat)
    (search : Option (List FieldCondition) → Nat → List ScoredPoint)
    (parse : String → Option Int) :
    buildConditions q =
      (q.subject.map (fun s => FieldCondition.mk "subject" s)).toList ++
      (q.predicate.map (fun p => FieldCondition.mk "predicate" p)).toList ++
      (q.object.map (fun o => FieldCondition.mk "object" o)).toList ∧
    (∀ c ∈ buildConditions q,
      c.key = "subject" ∨ c.key = "predicate" ∨ c.key = "object") ∧
    Nat.min q.limit max_facts ≤ max_facts ∧
    (queryFacts max_facts search parse q).facts =
      (search (buildFilter q) (Nat.min q.limit max_facts)).filterMap
        (pointToFact parse) ∧
    (∀ pt : ScoredPoint, pt.payload = none → pointToFact parse pt = none) ∧
    (∀ (pt : ScoredPoint) (payload : List (String × Json)),
      pt.payload = some payload → payloadGet payload "subject" = none →
      pointToFact parse pt = none) := by
  obtain ⟨s, p, o, sd, mc, lim⟩ := q
  refine ⟨?_, ?_, Nat.min_le_right _ _, rfl, ?_, ?_⟩
  · cases s <;> cases p <;> cases o <;> rfl
  · intro c hc
    cases s <;> cases p <;> cases o <;>
      simp [buildConditions] at hc <;>
      rcases hc with rfl | rfl | rfl | rfl <;> simp
  · intro pt h
    simp [pointToFact, h]
  · intro pt payload hp hs
    simp [pointToFact, hp, hs]

/-- Witness for C6 (amended): a concrete query and a hit with no
payload, which is dropped; the limit cap on a concrete over-limit
query. -/
theorem claim_C6_query_filter_witness :
    pointToFact (fun _ => some 0) ⟨some "p1", none⟩ = none ∧
    Nat.min (500 : Nat) 100 ≤ 100 :=
  ⟨(claim_C6_query_filter ⟨some "A", some "B", none, some "d", none, 500⟩ 100
      (fun _ _ => [⟨some "p1", none⟩]) (fun _ => some 0)).2.2.2.2.1
      ⟨some "p1", none⟩ rfl,
   (claim_C6_query_filter ⟨some "A", some "B", none, some "d", none, 500⟩ 100
      (fun _ _ => [⟨some "p1", none⟩]) (fun _ => some 0)).2.2.1⟩

/-- C7 counterexample: the hash does NOT trim — a subject differing
only in a trailing space hashes differently (the two subjects trim to
the same string). -/
theorem claim_C7_counterexample :
    computeHash "A" "B" "C" SourceAnchor.empty ≠
      computeHash "A " "B" "C" SourceAnchor.empty ∧
    "A " = "A" ++ " " := by
  constructor
  · decide
  · rfl

/-- C7 (amended): `Fact::compute_hash` is a deterministic function of
only the RAW (untrimmed) `subject`, `predicate`, `object`, `doc_id`,
`page`, `region_id` fields: facts built from the same
subject/predicate/object and source anchor hash equally even when
`id`, `observed_at`, or `confidence` differ, and anchors differing only
in `vt_ref`/`path_line` hash equally; whitespace differences in the
hashed fields change the hash (no trimming is applied). -/
theorem claim_C7_hash_deterministic (s p o : String) (a a' : SourceAnchor)
    (id1 id2 : String) (t1 t2 : Int) (c1 c2 : ℚ)
    (hdoc : a.doc_id = a'.doc_id) (hpage : a.page = a'.page)
    (hreg : a.region_id = a'.region_id) :
    (factNew id1 t1 s p o a c1).hash = (factNew id2 t2 s p o a c2).hash ∧
    computeHash s p o a = computeHash s p o a' := by
  refine ⟨rfl, ?_⟩
  unfold computeHash hashPreimage
  rw [hdoc, hpage, hreg]

/-- Witness for C7 (amended): concrete facts differing in id, time and
confidence, and concrete anchors differing only in `vt_ref`/`path_line`. -/
theorem claim_C7_hash_deterministic_witness :
    (factNew "id-a" 0 "Rust" "is_a" "lang"
      ⟨some "doc_1", some 1, none, some "vt", none⟩ 1).hash =
      (factNew "id-b" 99 "Rust" "is_a" "lang"
        ⟨some "doc_1", some 1, none, some "vt", none⟩ (1/2)).hash ∧
    computeHash "Rust" "is_a" "lang"
      ⟨some "doc_1", some 1, none, some "vt", none⟩ =
      computeHash "Rust" "is_a" "lang"
        ⟨some "doc_1", some 1, none, none, some "x"⟩ :=
  claim_C7_hash_deterministic "Rust" "is_a" "lang"
    ⟨some "doc_1", some 1, none, some "vt", none⟩
    ⟨some "doc_1", some 1, none, none, some "x"⟩
    "id-a" "id-b" 0 99 1 (1/2) rfl rfl rfl

/-- C5 counterexample: the summarizer receives the brief and ALL the
recent turns (the last turn included), not all-but-the-last; and a
7-artifact list shrinks to 4 items where the claim's
`max(4, ⌈2·7/3⌉)` is 5. -/
theorem claim_C5_counterexample :
    textsToSummarize "brief" ["turn1", "turn2"] = ["brief", "turn1", "turn2"] ∧
    summarizeTurns (fun texts _ => String.intercalate "\n" texts)
      TokenBudgetConfig.default "brief" ["turn1", "turn2"] =
        "brief\nturn1\nturn2" ∧
    (shrinkArtifacts (List.replicate 7
      ⟨"a", "", [], .low, ⟨some 0, some 0, some 0, some 0, some 0⟩, 10⟩)).length = 4 ∧
    specShrinkCount 7 = 5 := by
  refine ⟨rfl, rfl, ?_, rfl⟩
  decide

/-- C5 (amended): on budget overflow the retry path invokes the
summarizer on the concatenation of the current brief and ALL the recent
turns with a target of the `running_brief` budget, keeps only the last
recent turn, and shrinks the artifact list to its first
`max(4, ⌊2·n/3⌋)` items (the lowest-priority tail of the prioritized
list is dropped). -/
theorem claim_C5_summarize_retry (est : String → Nat)
    (summarizer : List String → Nat → String) (cfg : TokenBudgetConfig)
    (sp brief t : String) (turns : List String)
    (arts : List ContextArtifact) (ctx : AdaptiveContext)
    (hne : turns ≠ [])
    (hlast : turns.getLast? = some t)
    (hok : summarizeAndRetry est summarizer cfg sp brief turns arts = .ok ctx) :
    ctx.running_brief = summarizer (textsToSummarize brief turns) cfg.running_brief ∧
    ctx.recent_turns = [t] ∧
    ctx.retrieved_snippets = arts.take (Nat.max (arts.length * 2 / 3) 4) ∧
    (shrinkArtifacts arts).length =
      Nat.min (Nat.max (arts.length * 2 / 3) 4) arts.length := by
  have hsum : summarizeTurns summarizer cfg brief turns =
      summarizer (textsToSummarize brief turns) cfg.running_brief := by
    unfold summarizeTurns
    rw [if_neg (by simpa [List.isEmpty_iff] using hne)]
  unfold summarizeAndRetry at hok
  rw [hlast] at hok
  dsimp only at hok
  split at hok
  · exact absurd hok (by simp)
  · split at hok
    · exact absurd hok (by simp)
    · cases hok
      refine ⟨hsum, rfl, rfl, ?_⟩
      unfold shrinkArtifacts
      simp [List.length_take, Nat.min_comm]

/-- Witness for C5 (amended): a concrete overflow retry in which the
summarizer demonstrably receives the last turn and the last turn is
kept. -/
theorem claim_C5_summarize_retry_witness :
    (AdaptiveContext.mk "sys" "b\nt1\nt2" ["t2"] []
      ⟨1, 1, 1, 0, 0, 3, 97⟩ []).running_brief =
      (fun (texts : List String) (_ : Nat) => String.intercalate "\n" texts)
        (textsToSummarize "b" ["t1", "t2"]) (0 : Nat) ∧
    (AdaptiveContext.mk "sys" "b\nt1\nt2" ["t2"] []
      ⟨1, 1, 1, 0, 0, 3, 97⟩ []).recent_turns = ["t2"] ∧
    (AdaptiveContext.mk "sys" "b\nt1\nt2" ["t2"] []
      ⟨1, 1, 1, 0, 0, 3, 97⟩ []).retrieved_snippets =
      ([] : List ContextArtifact).take (Nat.max (0 * 2 / 3) 4) ∧
    (shrinkArtifacts []).length =
      Nat.min (Nat.max (([] : List ContextArtifact).length * 2 / 3) 4)
        ([] : List ContextArtifact).length :=
  claim_C5_summarize_retry (fun _ => 1)
    (fun texts _ => String.intercalate "\n" texts)
    ⟨0, 0, 0, 0, 0, 100⟩ "sys" "b" "t2" ["t1", "t2"] []
    (AdaptiveContext.mk "sys" "b\nt1\nt2" ["t2"] [] ⟨1, 1, 1, 0, 0, 3, 97⟩ [])
    (by simp) rfl (by rfl)

/-- Helper: pointwise read-back of a breaker-table update. -/
theorem BreakerMap.set_self (m : BreakerMap) (op : String) (e : BreakerEntry) :
    (m.set op e) op = e := by
  simp [BreakerMap.set]

/-- Helper: `mark_failure` over a snoc of failure times. -/
theorem markFailures_append (cfg : CircuitBreakerConfig) (m : BreakerMap)
    (op : String) (ts : List Nat) (t : Nat) :
    markFailures cfg m op (ts ++ [t]) =
      markFailure cfg (markFailures cfg m op ts) op t := by
  simp [markFailures, List.foldl_append]

/-- Helper for C3: the entry reached from a fresh table by
`mark_failure` calls at times `ts`: the count is `|ts|`, the state is
`Open` exactly once the count has reached the threshold (with at least
one failure), and `opened_at` is then the last failure time. -/
theorem markFailures_op_entry (cfg : CircuitBreakerConfig) (op : String)
    (ts : List Nat) :
    (markFailures cfg BreakerMap.initial op ts) op =
      ⟨if cfg.failure_threshold ≤ ts.length ∧ ts ≠ [] then .open else .closed,
       ts.length,
       ts.getLast?,
       if cfg.failure_threshold ≤ ts.length ∧ ts ≠ [] then ts.getLast?
       else none⟩ := by
  induction ts using List.reverseRecOn with
  | nil => simp [markFailures, BreakerMap.initial, BreakerEntry.new]
  | append_singleton ts t ih =>
    rw [markFailures_append]
    unfold markFailure
    rw [BreakerMap.set_self, ih]
    unfold markFailureEntry
    dsimp only
    by_cases h : cfg.failure_threshold ≤ ts.length + 1
    · rw [if_pos (by simpa using h)]
      simp [h]
    · rw [if_neg (by simpa using h)]
      have hold : ¬ (cfg.failure_threshold ≤ ts.length ∧ ts ≠ []) := by
        rintro ⟨hle, -⟩; omega
      rw [if_neg hold]
      simp [h]
      intro hle
      exact absurd hle (by omega)

/-- C3: the circuit-breaker state machine per operation label, from a
fresh table: below the failure threshold the breaker stays `Closed` and
`is_open` is `false`; the threshold-th `mark_failure` opens the breaker
and records `opened_at`; while in `Open`, probes strictly before
`opened_at + reset_timeout` return `true` and change nothing, and a
probe at or after the boundary returns `false` and transitions to
`HalfOpen`; any `mark_success` resets the entry to `Closed` with zero
failures. -/
theorem claim_C3_circuit_breaker (cfg : CircuitBreakerConfig) (op : String)
    (ts : List Nat) (m : BreakerMap) (e : BreakerEntry) (now T t : Nat) :
    (ts.length < cfg.failure_threshold →
      ((markFailures cfg BreakerMap.initial op ts) op).state = .closed ∧
      (isOpen cfg (markFailures cfg BreakerMap.initial op ts) op now).1 = false) ∧
    (1 ≤ cfg.failure_threshold → ts.length = cfg.failure_threshold →
      ts.getLast? = some t →
      ((markFailures cfg BreakerMap.initial op ts) op).state = .open ∧
      ((markFailures cfg BreakerMap.initial op ts) op).failure_count =
        cfg.failure_threshold ∧
      ((markFailures cfg BreakerMap.initial op ts) op).opened_at = some t) ∧
    (m op = e → e.state = .open → e.opened_at = some T → T ≤ now →
      now < T + cfg.reset_timeout →
      (isOpen cfg m op now).1 = true ∧ (isOpen cfg m op now).2 op = e) ∧
    (m op = e → e.state = .open → e.opened_at = some T →
      T + cfg.reset_timeout ≤ now →
      (isOpen cfg m op now).1 = false ∧
      (isOpen cfg m op now).2 op = { e with state := .halfOpen }) ∧
    ((markSuccess m op) op = ⟨.closed, 0, none, none⟩) := by
  refine ⟨?_, ?_, ?_, ?_, ?_⟩
  · intro hlt
    have hcond : ¬ (cfg.failure_threshold ≤ ts.length ∧ ts ≠ []) := by
      rintro ⟨hle, -⟩; omega
    constructor
    · rw [markFailures_op_entry, if_neg hcond]
    · unfold isOpen isOpenEntry
      rw [markFailures_op_entry]
      rw [if_neg hcond]
  · intro hpos hlen hlast
    have hne : ts ≠ [] := by
      intro hnil
      rw [hnil] at hlen
      simp at hlen
      omega
    have hcond : cfg.failure_threshold ≤ ts.length ∧ ts ≠ [] :=
      ⟨le_of_eq hlen.symm, hne⟩
    rw [markFailures_op_entry]
    refine ⟨?_, ?_, ?_⟩ <;> simp [hcond, hlen, hlast]
  · intro hme hst hopen hTnow hbefore
    have hlt : ¬ (now - T ≥ cfg.reset_timeout) := by omega
    unfold isOpen isOpenEntry
    rw [hme, hst, hopen]
    dsimp only
    rw [if_neg hlt]
    exact ⟨rfl, BreakerMap.set_self m op e⟩
  · intro hme hst hopen hafter
    have hge : now - T ≥ cfg.reset_timeout := by omega
    unfold isOpen isOpenEntry
    rw [hme, hst, hopen]
    dsimp only
    rw [if_pos hge]
    exact ⟨rfl, BreakerMap.set_self m op _⟩
  · simp [markSuccess, BreakerMap.set]

/-- Witness for C3: threshold 2, reset timeout 10; a single failure
leaves the breaker closed; a second failure at time 5 opens it with
`opened_at = 5`; a probe at 10 reports open and changes nothing; a
probe at 15 reports closed and transitions to `HalfOpen`; a success
resets. -/
theorem claim_C3_circuit_breaker_witness :
    (((markFailures ⟨2, 10⟩ BreakerMap.initial "decode" [3]) "decode").state =
        .closed ∧
      (isOpen ⟨2, 10⟩ (markFailures ⟨2, 10⟩ BreakerMap.initial "decode" [3])
        "decode" 4).1 = false) ∧
    (((markFailures ⟨2, 10⟩ BreakerMap.initial "decode" [3, 5]) "decode").state =
        .open ∧
      ((markFailures ⟨2, 10⟩ BreakerMap.initial "decode" [3, 5])
        "decode").failure_count = 2 ∧
      ((markFailures ⟨2, 10⟩ BreakerMap.initial "decode" [3, 5])
        "decode").opened_at = some 5) ∧
    ((isOpen ⟨2, 10⟩
        (BreakerMap.initial.set "decode" ⟨.open, 2, some 5, some 5⟩)
        "decode" 10).1 = true ∧
      (isOpen ⟨2, 10⟩
        (BreakerMap.initial.set "decode" ⟨.open, 2, some 5, some 5⟩)
        "decode" 10).2 "decode" = ⟨.open, 2, some 5, some 5⟩) ∧
    ((isOpen ⟨2, 10⟩
        (BreakerMap.initial.set "decode" ⟨.open, 2, some 5, some 5⟩)
        "decode" 15).1 = false ∧
      (isOpen ⟨2, 10⟩
        (BreakerMap.initial.set "decode" ⟨.open, 2, some 5, some 5⟩)
        "decode" 15).2 "decode" = ⟨.halfOpen, 2, some 5, some 5⟩) ∧
    ((markSuccess
        (BreakerMap.initial.set "decode" ⟨.open, 2, some 5, some 5⟩)
        "decode") "decode" = ⟨.closed, 0, none, none⟩) :=
  ⟨(claim_C3_circuit_breaker ⟨2, 10⟩ "decode" [3] BreakerMap.initial
      BreakerEntry.new 4 0 0).1 (by decide),
   (claim_C3_circuit_breaker ⟨2, 10⟩ "decode" [3, 5] BreakerMap.initial
      BreakerEntry.new 0 0 5).2.1 (by decide) (by decide) (by decide),
   (claim_C3_circuit_breaker ⟨2, 10⟩ "decode" []
      (BreakerMap.initial.set "decode" ⟨.open, 2, some 5, some 5⟩)
      ⟨.open, 2, some 5, some 5⟩ 10 5 0).2.2.1 rfl rfl rfl
      (by decide) (by decide),
   (claim_C3_circuit_breaker ⟨2, 10⟩ "decode" []
      (BreakerMap.initial.set "decode" ⟨.open, 2, some 5, some 5⟩)
      ⟨.open, 2, some 5, some 5⟩ 15 5 0).2.2.2.1 rfl rfl rfl (by decide),
   (claim_C3_circuit_breaker ⟨2, 10⟩ "decode" []
      (BreakerMap.initial.set "decode" ⟨.open, 2, some 5, some 5⟩)
      ⟨.open, 2, some 5, some 5⟩ 0 0 0).2.2.2.2⟩

/-- Helper: what the minimum scan of the eviction pass returns — an
element of the list whose insertion time is minimal (and no older than
any accumulator seed). -/
theorem foldl_oldestStep_spec :
    ∀ (l : CacheEntries) (acc : Option (CacheKey × CacheEntry))
      (res : CacheKey × CacheEntry),
      l.foldl oldestStep acc = some res →
      (res ∈ l ∨ acc = some res) ∧
      (∀ q ∈ l, res.2.inserted_at ≤ q.2.inserted_at) ∧
      (∀ a, acc = some a → res.2.inserted_at ≤ a.2.inserted_at) := by
  intro l
  induction l with
  | nil =>
    intro acc res h
    simp only [List.foldl_nil] at h
    refine ⟨Or.inr h, by simp, ?_⟩
    intro a ha
    rw [h] at ha
    cases ha
    exact le_refl _
  | cons p t ih =>
    intro acc res h
    rw [List.foldl_cons] at h
    obtain ⟨hmem, hminT, hacc'⟩ := ih (oldestStep acc p) res h
    have hresp : res.2.inserted_at ≤ p.2.inserted_at := by
      cases acc with
      | none => exact hacc' p rfl
      | some q =>
        simp only [oldestStep] at hacc'
        by_cases hpq : p.2.inserted_at ≤ q.2.inserted_at
        · rw [if_pos hpq] at hacc'
          exact hacc' p rfl
        · rw [if_neg hpq] at hacc'
          exact le_trans (hacc' q rfl) (by omega)
    refine ⟨?_, ?_, ?_⟩
    · rcases hmem with hmem | hmem
      · exact Or.inl (List.mem_cons_of_mem p hmem)
      · cases acc with
        | none =>
          simp only [oldestStep] at hmem
          cases hmem
          exact Or.inl (List.mem_cons_self p t)
        | some q =>
          simp only [oldestStep] at hmem
          by_cases hpq : p.2.inserted_at ≤ q.2.inserted_at
          · rw [if_pos hpq] at hmem
            cases hmem
            exact Or.inl (List.mem_cons_self p t)
          · rw [if_neg hpq] at hmem
            cases hmem
            exact Or.inr rfl
    · intro q hq
      rcases List.mem_cons.mp hq with rfl | hq
      · exact hresp
      · exact hminT q hq
    · intro a ha
      cases acc with
      | none => cases ha
      | some q =>
        obtain rfl : q = a := by injection ha
        simp only [oldestStep] at hacc'
        by_cases hpq : p.2.inserted_at ≤ q.2.inserted_at
        · rw [if_pos hpq] at hacc'
          exact le_trans (hacc' p rfl) hpq
        · rw [if_neg hpq] at hacc'
          exact hacc' q rfl

/-- Helper: the minimum scan succeeds on a nonempty list. -/
theorem foldl_oldestStep_isSome :
    ∀ (l : CacheEntries) (acc : Option (CacheKey × CacheEntry)),
      acc.isSome → (l.foldl oldestStep acc).isSome := by
  intro l
  induction l with
  | nil => intro acc h; simpa using h
  | cons p t ih =>
    intro acc h
    rw [List.foldl_cons]
    apply ih
    cases acc with
    | none => simp at h
    | some q =>
      simp only [oldestStep]
      by_cases hpq : p.2.inserted_at ≤ q.2.inserted_at <;> simp [hpq]

/-- Helper: `oldestPair` on a nonempty table. -/
theorem oldestPair_of_ne_nil {l : CacheEntries} (h : l ≠ []) :
    ∃ p, oldestPair l = some p := by
  cases l with
  | nil => exact absurd rfl h
  | cons q t =>
    unfold oldestPair
    rw [List.foldl_cons]
    have := foldl_oldestStep_isSome t (oldestStep none q) (by simp [oldestStep])
    exact Option.isSome_iff_exists.mp this

/-- Helper: erasing a present key from a table with pairwise-distinct
keys shrinks it by exactly one entry. -/
theorem cacheEraseKey_length {l : CacheEntries} {p : CacheKey × CacheEntry}
    (hnd : cacheKeysNodup l) (hmem : p ∈ l) :
    (cacheEraseKey p.1 l).length + 1 = l.length := by
  induction l with
  | nil => cases hmem
  | cons q t ih =>
    unfold cacheKeysNodup at hnd
    rw [List.map_cons, List.nodup_cons] at hnd
    obtain ⟨hq, hndt⟩ := hnd
    rcases List.mem_cons.mp hmem with rfl | hmem
    · unfold cacheEraseKey
      rw [List.filter_cons_of_neg (by simp [keyEq])]
      have hself : List.filter (fun x => ! keyEq p.1 x) t = t := by
        rw [List.filter_eq_self]
        intro a ha
        simp only [keyEq, Bool.not_eq_true', decide_eq_false_iff_not]
        intro hk
        exact hq (hk ▸ List.mem_map_of_mem (·.1) ha)
      rw [hself, List.length_cons]
    · have hne : ¬ keyEq p.1 q = true := by
        simp only [keyEq, decide_eq_true_eq]
        intro hk
        exact hq (hk ▸ List.mem_map_of_mem (·.1) hmem)
      unfold cacheEraseKey at ih ⊢
      rw [List.filter_cons_of_pos (by simpa using hne), List.length_cons,
        List.length_cons]
      have := ih hndt hmem
      omega

/-- Helper: a key is gone after being erased. -/
theorem cacheLookup_eraseKey_self (k : CacheKey) (l : CacheEntries) :
    cacheLookup k (cacheEraseKey k l) = none := by
  unfold cacheLookup cacheEraseKey
  rw [Option.map_eq_none', List.find?_eq_none]
  intro x hx
  have hmf := (List.mem_filter.mp hx).2
  simp only [Bool.not_eq_true'] at hmf
  simp [hmf]

/-- Helper: erasing preserves key absence. -/
theorem cacheLookup_eraseKey_none {k : CacheKey} {l : CacheEntries}
    (h : cacheLookup k l = none) (k' : CacheKey) :
    cacheLookup k (cacheEraseKey k' l) = none := by
  unfold cacheLookup cacheEraseKey at *
  rw [Option.map_eq_none', List.find?_eq_none] at *
  intro x hx
  exact h x (List.mem_of_mem_filter hx)

/-- Helper: a member's key is found. -/
theorem cacheLookup_isSome_of_mem {l : CacheEntries}
    {p : CacheKey × CacheEntry} (hmem : p ∈ l) :
    (cacheLookup p.1 l).isSome := by
  unfold cacheLookup
  rw [Option.isSome_map']
  rw [List.find?_isSome]
  exact ⟨p, hmem, by simp [keyEq]⟩

/-- C4 counterexample: with `max_size = 0` a store leaves one entry in
the cache, violating `size ≤ max_size` as universally claimed. -/
theorem claim_C4_counterexample :
    (cacheStore ⟨[], 60, 0⟩ "region1" .balanced ⟨"region1", "Text", 1⟩ 5).entries.length = 1 ∧
    ¬ (cacheStore ⟨[], 60, 0⟩ "region1" .balanced
        ⟨"region1", "Text", 1⟩ 5).entries.length ≤ (0 : Nat) := by
  decide

/-- C4 (amended): the decode-cache contract, for `max_size ≥ 1`:
a stored entry is returned verbatim iff `now − t0 < ttl` and otherwise
removed; a store on a table within capacity stays within `max_size`;
and a store at capacity with a new key evicts an entry of minimal
insertion time. (For `max_size = 0` a store leaves one entry, hence the
`1 ≤ max_size` proviso.) -/
theorem claim_C4_decode_cache (c : DecodeCache) (rid : String)
    (fid : FidelityLevel) (r : DecodeResult) (t0 now : Nat)
    (res : DecodeResult) :
    (cacheLookup ⟨rid, fid.asStr⟩ c.entries = some ⟨r, t0⟩ →
      ((cacheGet c rid fid now).1 = some r ↔ now - t0 < c.ttl) ∧
      (¬ now - t0 < c.ttl →
        cacheLookup ⟨rid, fid.asStr⟩ (cacheGet c rid fid now).2.entries = none)) ∧
    (cacheKeysNodup c.entries → c.entries.length ≤ c.max_size →
      1 ≤ c.max_size →
      (cacheStore c rid fid res now).entries.length ≤ c.max_size) ∧
    (cacheKeysNodup c.entries → c.entries.length = c.max_size →
      1 ≤ c.max_size →
      cacheLookup ⟨rid, fid.asStr⟩ c.entries = none →
      ∃ p : CacheKey × CacheEntry,
        oldestPair c.entries = some p ∧ p ∈ c.entries ∧
        (∀ q ∈ c.entries, p.2.inserted_at ≤ q.2.inserted_at) ∧
        cacheLookup p.1 (cacheStore c rid fid res now).entries = none ∧
        (cacheStore c rid fid res now).entries.length = c.max_size) := by
  refine ⟨?_, ?_, ?_⟩
  · intro hfound
    unfold cacheGet
    dsimp only
    rw [hfound]
    dsimp only
    constructor
    · by_cases htl : now - t0 < c.ttl
      · rw [if_pos htl]
        simp [htl]
      · rw [if_neg htl]
        simp [htl]
    · intro htl
      rw [if_neg htl]
      exact cacheLookup_eraseKey_self _ _
  · intro hnd hle hpos
    unfold cacheStore
    dsimp only
    by_cases hk : (cacheLookup ⟨rid, fid.asStr⟩ c.entries).isSome
    · rw [if_neg (by simp [hk])]
      unfold cacheInsert
      rw [if_pos hk]
      simpa using hle
    · by_cases hcap : c.entries.length ≥ c.max_size
      · rw [if_pos ⟨hcap, hk⟩]
        have hlen : c.entries.length = c.max_size := le_antisymm hle hcap
        have hne : c.entries ≠ [] := by
          intro hnil
          rw [hnil] at hlen
          simp at hlen
          omega
        obtain ⟨p, hp⟩ := oldestPair_of_ne_nil hne
        obtain ⟨hmem', -, -⟩ := foldl_oldestStep_spec c.entries none p hp
        have hmem : p ∈ c.entries := by
          rcases hmem' with h | h
          · exact h
          · cases h
        unfold evictOldest
        rw [hp]
        have herase := cacheEraseKey_length hnd hmem
        unfold cacheInsert
        rw [if_neg (by
          have : cacheLookup ⟨rid, fid.asStr⟩ c.entries = none := by
            cases hv : cacheLookup ⟨rid, fid.asStr⟩ c.entries with
            | none => rfl
            | some v => rw [hv] at hk; simp at hk
          rw [cacheLookup_eraseKey_none this p.1]
          simp)]
        rw [List.length_append]
        simp only [List.length_cons, List.length_nil]
        omega
      · rw [if_neg (by intro h; exact hcap h.1)]
        unfold cacheInsert
        rw [if_neg hk]
        rw [List.length_append]
        simp only [List.length_cons, List.length_nil]
        omega
  · intro hnd hlen hpos habs
    have hne : c.entries ≠ [] := by
      intro hnil
      rw [hnil] at hlen
      simp at hlen
      omega
    obtain ⟨p, hp⟩ := oldestPair_of_ne_nil hne
    obtain ⟨hmem', hmin, -⟩ := foldl_oldestStep_spec c.entries none p hp
    have hmem : p ∈ c.entries := by
      rcases hmem' with h | h
      · exact h
      · cases h
    have hkne : ¬ p.1 = (⟨rid, fid.asStr⟩ : CacheKey) := by
      intro hkey
      have := cacheLookup_isSome_of_mem hmem
      rw [hkey, habs] at this
      simp at this
    refine ⟨p, hp, hmem, hmin, ?_, ?_⟩
    · unfold cacheStore
      dsimp only
      rw [if_pos ⟨le_of_eq hlen.symm, by simp [habs]⟩]
      unfold evictOldest
      rw [hp]
      unfold cacheInsert
      rw [if_neg (by rw [cacheLookup_eraseKey_none habs p.1]; simp)]
      have h1 : cacheLookup p.1 (cacheEraseKey p.1 c.entries) = none :=
        cacheLookup_eraseKey_self _ _
      have hkne' : ¬ (⟨rid, fid.asStr⟩ : CacheKey) = p.1 := fun h => hkne h.symm
      have h2 : cacheLookup p.1
          ([(⟨rid, fid.asStr⟩, (⟨res, now⟩ : CacheEntry))] : CacheEntries) = none := by
        simp [cacheLookup, keyEq, hkne']
      unfold cacheLookup at h1 h2 ⊢
      rw [Option.map_eq_none', List.find?_eq_none] at h1 h2 ⊢
      intro x hx
      rcases List.mem_append.mp hx with hx | hx
      · exact h1 x hx
      · exact h2 x hx
    · unfold cacheStore
      dsimp only
      rw [if_pos ⟨le_of_eq hlen.symm, by simp [habs]⟩]
      unfold evictOldest
      rw [hp]
      unfold cacheInsert
      rw [if_neg (by rw [cacheLookup_eraseKey_none habs p.1]; simp)]
      have herase := cacheEraseKey_length hnd hmem
      rw [List.length_append]
      simp only [List.length_cons, List.length_nil]
      omega

/-- Witness for C4 (amended): a concrete cache with `ttl = 10` holding
`(r1, 10x)` stored at time 5: a get at time 8 returns it, a get at 20
misses; a concrete store at capacity 1 with a new key keeps the size at
1 and evicts the stored key. -/
theorem claim_C4_decode_cache_witness :
    ((cacheGet ⟨[(⟨"r1", "10x"⟩, ⟨⟨"r1", "X", 1⟩, 5⟩)], 10, 8⟩ "r1" .balanced 8).1 =
        some ⟨"r1", "X", 1⟩ ↔ (8 : Nat) - 5 < 10) ∧
    (cacheStore ⟨[(⟨"r1", "10x"⟩, ⟨⟨"r1", "X", 1⟩, 5⟩)], 10, 1⟩
      "r2" .balanced ⟨"r2", "Y", 1⟩ 9).entries.length = 1 :=
  ⟨((claim_C4_decode_cache ⟨[(⟨"r1", "10x"⟩, ⟨⟨"r1", "X", 1⟩, 5⟩)], 10, 8⟩
      "r1" .balanced ⟨"r1", "X", 1⟩ 5 8 ⟨"r1", "X", 1⟩).1 rfl).1,
   by
    obtain ⟨p, -, -, -, -, hlen⟩ :=
      (claim_C4_decode_cache ⟨[(⟨"r1", "10x"⟩, ⟨⟨"r1", "X", 1⟩, 5⟩)], 10, 1⟩
        "r2" .balanced ⟨"r1", "X", 1⟩ 5 9 ⟨"r2", "Y", 1⟩).2.2
        (by decide) rfl (by decide) (by decide)
    exact hlen⟩

/-- Helper: the fallible insertion succeeds when the inserted element
compares against every list element. -/
theorem orderedInsertCmp_isSome {α : Type} (cmp : α → α → Option Ordering)
    (a : α) : ∀ l : List α, (∀ b ∈ l, (cmp a b).isSome) →
    (orderedInsertCmp cmp a l).isSome := by
  intro l
  induction l with
  | nil => intro h; simp [orderedInsertCmp]
  | cons b t ih =>
    intro h
    unfold orderedInsertCmp
    cases hc : cmp a b with
    | none => exact absurd (h b (List.mem_cons_self b t)) (by simp [hc])
    | some o =>
      cases o with
      | lt => simp
      | eq => simp
      | gt =>
        simp only [Option.isSome_map']
        exact ih (fun x hx => h x (List.mem_cons_of_mem b hx))

/-- Helper: a successful fallible insertion permutes. -/
theorem orderedInsertCmp_perm {α : Type} (cmp : α → α → Option Ordering)
    (a : α) : ∀ (l out : List α), orderedInsertCmp cmp a l = some out →
    out.Perm (a :: l) := by
  intro l
  induction l with
  | nil =>
    intro out h
    simp only [orderedInsertCmp, Option.some.injEq] at h
    subst h
    exact List.Perm.refl _
  | cons b t ih =>
    intro out h
    unfold orderedInsertCmp at h
    cases hc : cmp a b <;> rw [hc] at h
    case none => cases h
    case some o =>
      cases o with
      | lt =>
        simp only [Option.some.injEq] at h
        subst h
        exact List.Perm.refl _
      | eq =>
        simp only [Option.some.injEq] at h
        subst h
        exact List.Perm.refl _
      | gt =>
        obtain ⟨out', hins, rfl⟩ := Option.map_eq_some'.mp h
        exact (List.Perm.cons b (ih out' hins)).trans (List.Perm.swap a b t)

/-- Helper: a successful fallible sort permutes. -/
theorem sortByCmp_perm {α : Type} (cmp : α → α → Option Ordering) :
    ∀ (l out : List α), sortByCmp cmp l = some out → out.Perm l := by
  intro l
  induction l with
  | nil =>
    intro out h
    simp only [sortByCmp, Option.some.injEq] at h
    subst h
    exact List.Perm.refl _
  | cons a t ih =>
    intro out h
    unfold sortByCmp at h
    obtain ⟨out', hsort, hins⟩ := Option.bind_eq_some.mp h
    exact (orderedInsertCmp_perm cmp a out' out hins).trans
      (List.Perm.cons a (ih out' hsort))

/-- Helper: the fallible sort succeeds when the comparator is total on
the list. -/
theorem sortByCmp_isSome {α : Type} (cmp : α → α → Option Ordering) :
    ∀ l : List α, (∀ x ∈ l, ∀ y ∈ l, (cmp x y).isSome) →
    (sortByCmp cmp l).isSome := by
  intro l
  induction l with
  | nil => intro h; simp [sortByCmp]
  | cons a t ih =>
    intro h
    have hsome := ih (fun x hx y hy =>
      h x (List.mem_cons_of_mem a hx) y (List.mem_cons_of_mem a hy))
    obtain ⟨out', hsort⟩ := Option.isSome_iff_exists.mp hsome
    unfold sortByCmp
    rw [hsort]
    show (orderedInsertCmp cmp a out').isSome
    apply orderedInsertCmp_isSome
    intro b hb
    have hbt : b ∈ t := (sortByCmp_perm cmp t out' hsort).mem_iff.mp hb
    exact h a (List.mem_cons_self a t) b (List.mem_cons_of_mem a hbt)

/-- Helper (stability of the insertion step): inserting `a` never moves
it past an element of its own equivalence class, so class-filtering the
result puts `a` first. `p` carves out one class; the hypothesis says `a`
never compares `Greater` against a class member. -/
theorem orderedInsertCmp_filter {α : Type} (cmp : α → α → Option Ordering)
    (p : α → Bool) (a : α) :
    ∀ (l out : List α),
      (∀ b ∈ l, p a = true → p b = true → cmp a b ≠ some .gt) →
      orderedInsertCmp cmp a l = some out →
      out.filter p = if p a then a :: l.filter p else l.filter p := by
  intro l
  induction l with
  | nil =>
    intro out hcompat h
    simp only [orderedInsertCmp, Option.some.injEq] at h
    subst h
    cases hpa : p a <;> simp [hpa]
  | cons b t ih =>
    intro out hcompat h
    unfold orderedInsertCmp at h
    cases hc : cmp a b <;> rw [hc] at h
    case none => cases h
    case some o =>
      cases o with
      | lt =>
        simp only [Option.some.injEq] at h
        subst h
        cases hpa : p a <;> simp [hpa, List.filter_cons]
      | eq =>
        simp only [Option.some.injEq] at h
        subst h
        cases hpa : p a <;> simp [hpa, List.filter_cons]
      | gt =>
        obtain ⟨out', hins, rfl⟩ := Option.map_eq_some'.mp h
        have hIH := ih out'
          (fun x hx => hcompat x (List.mem_cons_of_mem b hx)) hins
        cases hpa : p a with
        | true =>
          have hpb : p b = false := by
            cases hpb : p b with
            | false => rfl
            | true =>
              exact absurd hc (hcompat b (List.mem_cons_self b t) hpa hpb)
          rw [hpa] at hIH
          simp only [if_pos rfl] at hIH
          simp [List.filter_cons, hpb, hIH]
        | false =>
          rw [hpa] at hIH
          simp only [Bool.false_eq_true, if_neg] at hIH
          simp only [List.filter_cons, hIH]
          cases hpb : p b <;> simp [hpb]

/-- Helper (stability of the fallible sort): class-filtering commutes
with the sort, i.e. elements comparing as ties keep their input order. -/
theorem sortByCmp_filter {α : Type} (cmp : α → α → Option Ordering)
    (p : α → Bool) :
    ∀ (l out : List α),
      (∀ x ∈ l, ∀ y ∈ l, p x = true → p y = true → cmp x y ≠ some .gt) →
      sortByCmp cmp l = some out →
      out.filter p = l.filter p := by
  intro l
  induction l with
  | nil =>
    intro out hcompat h
    simp only [sortByCmp, Option.some.injEq] at h
    subst h
    rfl
  | cons a t ih =>
    intro out hcompat h
    unfold sortByCmp at h
    obtain ⟨out', hsort, hins⟩ := Option.bind_eq_some.mp h
    have hperm := sortByCmp_perm cmp t out' hsort
    have hfilter := orderedInsertCmp_filter cmp p a out' out
      (fun b hb => hcompat a (List.mem_cons_self a t) b
        (List.mem_cons_of_mem a (hperm.mem_iff.mp hb))) hins
    have hIH := ih out'
      (fun x hx y hy => hcompat x (List.mem_cons_of_mem a hx) y
        (List.mem_cons_of_mem a hy)) hsort
    rw [hfilter, hIH, List.filter_cons]

/-- Helper: the artifact comparator is total on non-NaN relevance
totals. -/
theorem artifactCmp_isSome_of_not_nan {a b : ContextArtifact}
    (ha : a.relevance.total.isSome) (hb : b.relevance.total.isSome) :
    (artifactCmp a b).isSome := by
  unfold artifactCmp
  cases compare b.priority.rank a.priority.rank with
  | eq =>
    obtain ⟨x, hx⟩ := Option.isSome_iff_exists.mp ha
    obtain ⟨y, hy⟩ := Option.isSome_iff_exists.mp hb
    simp [f32PartialCmp, hx, hy]
  | lt => simp
  | gt => simp

/-- Helper: the artifact comparator never answers `Greater` between two
artifacts of the same priority and the same relevance total (the claim's
"exact ties"). -/
theorem artifactCmp_ne_gt_of_tie {a b : ContextArtifact}
    (hpr : a.priority.rank = b.priority.rank)
    (htot : a.relevance.total = b.relevance.total) :
    artifactCmp a b ≠ some .gt := by
  unfold artifactCmp
  rw [hpr]
  have hcmp : compare b.priority.rank b.priority.rank = .eq := by
    simp [Nat.compare_eq_eq]
  rw [hcmp]
  rw [htot]
  unfold f32PartialCmp
  cases b.relevance.total with
  | none => simp
  | some q =>
    have hq : compare q q = .eq := compare_eq_iff_eq.mpr rfl
    simp [hq]

/-- C10: the artifact-prioritization sort unwraps a partial comparison:
for every artifact list whose relevance totals are all non-NaN the
comparator is total, the sort succeeds (never panics), permutes the
input, and keeps the input order inside every (priority, total) tie
class (stable sort); but on an input containing a NaN relevance total
the comparison panics — modelled as the distinguished `none`/`panic`
result — and the assembly aborts instead of returning an error value. -/
theorem claim_C10_sort_nan_panic :
    (∀ l : List ContextArtifact, (∀ a ∈ l, a.relevance.total.isSome) →
      (∀ x ∈ l, ∀ y ∈ l, (artifactCmp x y).isSome) ∧
      ∃ out, sortByCmp artifactCmp l = some out ∧ out.Perm l ∧
        ∀ (pr : Nat) (tot : F32),
          out.filter (fun x =>
            decide (x.priority.rank = pr ∧ x.relevance.total = tot)) =
          l.filter (fun x =>
            decide (x.priority.rank = pr ∧ x.relevance.total = tot))) ∧
    (sortByCmp artifactCmp
      [⟨"ok", "", [], .low, ⟨some 0, some 0, some 0, some 0, some 1⟩, 10⟩,
       ⟨"nan", "", [], .low, ⟨some 0, some 0, some 0, some 0, none⟩, 10⟩] =
        none ∧
    buildContext (fun _ => 0) (fun _ _ => "") TokenBudgetConfig.default
      "" "" []
      [⟨"ok", "", [], .low, ⟨some 0, some 0, some 0, some 0, some 1⟩, 10⟩,
       ⟨"nan", "", [], .low, ⟨some 0, some 0, some 0, some 0, none⟩, 10⟩] =
        .error .panic) := by
  constructor
  · intro l hl
    have htotal : ∀ x ∈ l, ∀ y ∈ l, (artifactCmp x y).isSome :=
      fun x hx y hy => artifactCmp_isSome_of_not_nan (hl x hx) (hl y hy)
    refine ⟨htotal, ?_⟩
    obtain ⟨out, hout⟩ :=
      Option.isSome_iff_exists.mp (sortByCmp_isSome artifactCmp l htotal)
    refine ⟨out, hout, sortByCmp_perm artifactCmp l out hout, ?_⟩
    intro pr tot
    apply sortByCmp_filter artifactCmp _ l out _ hout
    intro x hx y hy hpx hpy
    simp only [decide_eq_true_eq] at hpx hpy
    exact artifactCmp_ne_gt_of_tie (hpx.1.trans hpy.1.symm)
      (hpx.2.trans hpy.2.symm)
  · exact ⟨rfl, rfl⟩

/-- Witness for C10: the non-NaN branch applied to a concrete two-element
list of equal priority. -/
theorem claim_C10_sort_nan_panic_witness :
    (∀ x ∈ ([⟨"a", "", [], .low, ⟨some 0, some 0, some 0, some 0, some 1⟩, 10⟩,
        ⟨"b", "", [], .low, ⟨some 0, some 0, some 0, some 0, some 1⟩, 20⟩] :
          List ContextArtifact),
      ∀ y ∈ ([⟨"a", "", [], .low, ⟨some 0, some 0, some 0, some 0, some 1⟩, 10⟩,
        ⟨"b", "", [], .low, ⟨some 0, some 0, some 0, some 0, some 1⟩, 20⟩] :
          List ContextArtifact),
      (artifactCmp x y).isSome) ∧
    ∃ out, sortByCmp artifactCmp
      [⟨"a", "", [], .low, ⟨some 0, some 0, some 0, some 0, some 1⟩, 10⟩,
       ⟨"b", "", [], .low, ⟨some 0, some 0, some 0, some 0, some 1⟩, 20⟩] =
        some out ∧
      out.Perm
        [⟨"a", "", [], .low, ⟨some 0, some 0, some 0, some 0, some 1⟩, 10⟩,
         ⟨"b", "", [], .low, ⟨some 0, some 0, some 0, some 0, some 1⟩, 20⟩] ∧
      ∀ (pr : Nat) (tot : F32),
        out.filter (fun x =>
          decide (x.priority.rank = pr ∧ x.relevance.total = tot)) =
        List.filter (fun x =>
          decide (x.priority.rank = pr ∧ x.relevance.total = tot))
          [⟨"a", "", [], .low, ⟨some 0, some 0, some 0, some 0, some 1⟩, 10⟩,
           ⟨"b", "", [], .low, ⟨some 0, some 0, some 0, some 0, some 1⟩, 20⟩] :=
  (claim_C10_sort_nan_panic.1
    [⟨"a", "", [], .low, ⟨some 0, some 0, some 0, some 0, some 1⟩, 10⟩,
     ⟨"b", "", [], .low, ⟨some 0, some 0, some 0, some 0, some 1⟩, 20⟩]
    (by decide))

end HiRAG
